import Mathlib

/-!
Verification development for the adaptive extrema-finding core of
`gw_eccentricity` (files `eccDefinitionUsingFrequencyFits.py` and
`eccDefinitionUsingAmplitude.py`).

The Python code is shallowly embedded over `ℚ`:
* numpy arrays become `List ℚ` (indices `ℕ`),
* `np.argmax` over a boolean comparison array becomes a first-index search,
* python `int(...)` becomes truncation toward zero,
* the external numerical routines (`scipy.signal.find_peaks`,
  `scipy.optimize.curve_fit`, the numpy polynomial-fit refinement and the
  real-valued power function) are abstracted as oracle parameters of the
  embedding: the control flow of the embedded code never depends on anything
  those routines do not return to the Python code either,
* the float constant `np.pi` becomes a rational parameter `pi` of the inputs.
-/

namespace GwEcc

/-- Python `int(q)`: truncation toward zero. -/
def pyInt (q : ℚ) : ℤ := if 0 ≤ q then q.floor else -((-q).floor)

/-- Python slice `l[lo:hi]` (for `0 ≤ lo ≤ hi`; clipped to the list length,
as in Python). -/
def listSlice (l : List α) (lo hi : ℕ) : List α := (l.drop lo).take (hi - lo)

/-- `np.argmax(l > c)` on a rational array: numpy evaluates the comparison to a
boolean array and `argmax` returns the first `True` position, or `0` when no
entry is `True`. -/
def argmaxGt (l : List ℚ) (c : ℚ) : ℕ := (l.findIdx? (fun x => decide (c < x))).getD 0

/-- `np.argmax(l >= c)` on an index array (used for
`np.argmax(idx_extrema >= idx_ref)`). -/
def argmaxGeNat (l : List ℕ) (c : ℕ) : ℕ := (l.findIdx? (fun x => decide (c ≤ x))).getD 0

/-- `np.max` / `max` of a list (the embedded executions only apply it to
nonempty lists, where numpy would raise otherwise; `0` is a junk value). -/
def maxQ : List ℚ → ℚ
  | [] => 0
  | x :: xs => xs.foldl max x

/-- `np.min` / `min` of a list (same convention as `maxQ`). -/
def minQ : List ℚ → ℚ
  | [] => 0
  | x :: xs => xs.foldl min x

/-- `np.diff l`. -/
def listDiff (l : List ℚ) : List ℚ := l.zipWith (fun a b => b - a) l.tail

/-- Python indexing `l[i]` on an integer index, resolving negative indices
from the end of the list (the embedded executions stay in range, where numpy
would raise otherwise; `0` is a junk value). -/
def pyGetNat (l : List ℕ) (i : ℤ) : ℕ :=
  if 0 ≤ i then l.getD i.toNat 0 else l.getD (l.length - (-i).toNat) 0

/-- Python indexing `l[i]` on a rational list. -/
def pyGetQ (l : List ℚ) (i : ℤ) : ℚ :=
  if 0 ≤ i then l.getD i.toNat 0 else l.getD (l.length - (-i).toNat) 0

/-- Python slice `l[:k]` on an integer bound (the code only uses `k ≥ 0` or
`k = -1`). -/
def pySliceTo (l : List α) (k : ℤ) : List α :=
  if 0 ≤ k then l.take k.toNat else l.take (l.length - (-k).toNat)

deriving instance DecidableEq for Except

/-! ## `envelope_fitting_function` (lines 15-43)

`__call__(t, f0, f1, T)` re-expresses `(f0, f1, T)` as an exponent
`n = -(T-t0)*f1/f0` and an amplitude `A = f0*(T-t0)**(-n)`, raises when
`t.max() > T`, and otherwise returns `A*(T-t)**n`.  The real-valued power
`x ** y` (arbitrary rational exponent) is not representable as an executable
`ℚ` operation, so the embedding takes the power function `pw` as a parameter;
the guard and the shape of the returned expression are concrete. -/

/-- Exponent `n = -(T-t0)*f1/f0` of the re-parameterized envelope. -/
def envelopeN (t0 f0 f1 T : ℚ) : ℚ := -(T - t0) * f1 / f0

/-- Amplitude `A = f0*(T-t0)**(-n)` of the re-parameterized envelope. -/
def envelopeA (pw : ℚ → ℚ → ℚ) (t0 f0 f1 T : ℚ) : ℚ :=
  f0 * pw (T - t0) (-(envelopeN t0 f0 f1 T))

/-- `envelope_fitting_function.__call__` (lines 29-43): raises exactly when
`t.max() > T`, otherwise returns `A*(T-t)**n` elementwise. -/
def envelopeCall (pw : ℚ → ℚ → ℚ) (t0 : ℚ) (ts : List ℚ) (f0 f1 T : ℚ) :
    Except String (List ℚ) :=
  if T < maxQ ts then
    Except.error "envelope_fitting_function reached parameters where merger time T is within time-series to be fitted"
  else
    Except.ok (ts.map fun x => envelopeA pw t0 f0 f1 T * pw (T - x) (envelopeN t0 f0 f1 T))

/-! ## `extrema_type` dispatch (C10)

`eccDefinitionUsingAmplitude.find_extrema` (lines 50-56) and
`eccDefinitionUsingFrequencyFits.find_extrema` (lines 161-166) map the
`extrema_type` string to a sign, raising on anything else. -/

/-- Sign dispatch of `eccDefinitionUsingAmplitude.find_extrema` (lines 50-56). -/
def amplitudeExtremaSign (extrema_type : String) : Except String ℤ :=
  if extrema_type ∈ ["maxima", "pericenters"] then Except.ok 1
  else if extrema_type ∈ ["minima", "apocenters"] then Except.ok (-1)
  else Except.error "extrema_type must be one of maxima, minima, pericenters, apocenters"

/-- Sign dispatch of `eccDefinitionUsingFrequencyFits.find_extrema`
(lines 161-166). -/
def freqFitsExtremaSign (extrema_type : String) : Except String ℤ :=
  if extrema_type ∈ ["maxima", "peaks"] then Except.ok 1
  else if extrema_type ∈ ["minima", "troughs"] then Except.ok (-1)
  else Except.error "extrema_type unknown."

/-- Whether an `Except` value is an error. -/
def exceptIsError : Except ε α → Bool
  | Except.error _ => true
  | Except.ok _ => false

/-! ## Global-fit setup of the driving loop (STEP 1, lines 203-254)

Only the non-alpha branch (`UseAlphaFit = False`) is live in the source.  The
quantities relevant to claim C7 are the box constraints `bounds0` passed to
`scipy.optimize.curve_fit` and the data slice actually fitted. -/

structure GlobalFitSetup where
  idx_end : ℤ
  fit_center_time : ℚ
  f0 : ℚ
  boundsLo : List ℚ
  boundsHi : List ℚ
  tFit : List ℚ
  omegaFit : List ℚ
deriving DecidableEq

/-- STEP 1 of `eccDefinitionUsingFrequencyFits.find_extrema` (lines 203-254):
choice of the global-fit interval, initial guess center `fit_center_time`,
and the box constraints `bounds0`. -/
def globalFitSetup (pi : ℚ) (t phase22 omega22 : List ℚ) : GlobalFitSetup :=
  let idx0 := argmaxGt phase22 (phase22.headD 0 + 10 * 4 * pi)
  let idx_end : ℤ := if idx0 = 0 then -1 else (idx0 : ℤ)
  let fct := (1/2) * (t.headD 0 + pyGetQ t (-1))
  let f0 := (1/2) * (omega22.headD 0 + pyGetQ omega22 idx_end)
  { idx_end := idx_end
    fit_center_time := fct
    f0 := f0
    boundsLo := [0, 0, (8/10) * pyGetQ t (-1)]
    boundsHi := [10 * f0, 10 * f0 / (-fct), -fct]
    tFit := pySliceTo t idx_end
    omegaFit := pySliceTo omega22 idx_end }

/-! ## `FindExtremaNearIdxRef` (lines 400-808)

The tracker's `while True:` loop is embedded as a step function on an
explicit state, iterated with fuel.  The loop body returns whenever the
source `return`s, raises (`err`) where the source raises, and otherwise
produces the next state.  External numerical routines appear as oracle
fields of `TrackerInputs`:
* `findPeaks residual width prominence` stands for
  `scipy.signal.find_peaks(sign*omega_residual, width=width,
  prominence=prominence)[0]` (indices into the sliced residual),
* `curveFit ts omegas p0` stands for
  `scipy.optimize.curve_fit(f_fit, ts, omegas, p0=p0, bounds=bounds)[0]`
  (the bounds are fixed per invocation and folded into the oracle),
* `refineOracle idx_extrema p` stands for the per-extremum parabolic/cubic
  polynomial-fit refinement block (lines 582-624), which never changes the
  length of the three arrays in the source,
* `ffit t p` stands for `f_fit(t, *p)` with abstract parameter type `P`. -/

structure TrackerInputs (P : Type) where
  t : List ℚ
  phase22 : List ℚ
  omega22 : List ℚ
  sign : ℚ
  Nbefore : ℕ
  Nafter : ℕ
  ffit : ℚ → P → ℚ
  curveFit : List ℚ → List ℚ → P → P
  findPeaks : List ℚ → ℤ → ℚ → List ℕ
  refineOracle : List ℕ → P → List ℚ × List ℚ × List ℚ
  TOL : ℚ
  increase_idx_ref_if_needed : Bool
  refine_extrema : Bool
  pi : ℚ

/-- The mutable state of the tracker's `while True:` loop.  `promCache`
models the `width`/`prominence` pair: `none` is the source's
`prominence = None` sentinel requesting recomputation; the cached pair is
stored after the first computation and cleared after each `curve_fit`
(line 787). -/
structure TrackerState (P : Type) where
  idx_lo : ℕ
  idx_hi : ℕ
  idx_ref : ℕ
  K : ℚ
  p : P
  it : ℕ
  old_extrema : List ℚ
  old_idx_lo : ℤ
  old_idx_hi : ℤ
  Count_Nright_short : ℕ
  promCache : Option (ℤ × ℚ)
deriving DecidableEq

/-- The tuple returned by `FindExtremaNearIdxRef`
(`idx_extrema, p, K, idx_ref, extrema_refined`). -/
structure TrackerResult (P : Type) where
  idx_extrema : List ℕ
  p : P
  K : ℚ
  idx_ref : ℕ
  t_extrema : List ℚ
  omega22_extrema : List ℚ
  phase22_extrema : List ℚ
deriving DecidableEq

/-- `omega_residual = omega22[idx_lo:idx_hi] - f_fit(t[idx_lo:idx_hi], *p)`
(line 521). -/
def iterResidual (inp : TrackerInputs P) (s : TrackerState P) : List ℚ :=
  List.zipWith (fun w x => w - inp.ffit x s.p)
    (listSlice inp.omega22 s.idx_lo s.idx_hi)
    (listSlice inp.t s.idx_lo s.idx_hi)

/-- The `width`/`prominence` pair used by the current iteration's
`find_peaks` call: the cached pair if present, otherwise computed from the
current window (lines 535-539). -/
def iterWidthProm (inp : TrackerInputs P) (s : TrackerState P) : ℤ × ℚ :=
  match s.promCache with
  | some wp => wp
  | none =>
    let res := iterResidual inp s
    let maxdt := maxQ (listDiff (listSlice inp.t s.idx_lo s.idx_hi))
    let width := pyInt ((1/2) * 2 * inp.pi / maxQ (listSlice inp.omega22 s.idx_lo s.idx_hi) / maxdt)
    let amp := maxQ res - minQ res
    (width, amp * (3/100))

/-- Everything the iteration derives from the `find_peaks` call
(lines 544-559): global extrema indices, left/right counts, and the
grid-point arrays `t_extrema`, `omega22_extrema`, `phase22_extrema`. -/
structure DetectInfo where
  widthProm : ℤ × ℚ
  idx_extrema : List ℕ
  Nleft : ℕ
  Nright : ℕ
  Nx : ℕ
  tEx : List ℚ
  omegaEx : List ℚ
  phaseEx : List ℚ
deriving DecidableEq

def iterDetect (inp : TrackerInputs P) (s : TrackerState P) : DetectInfo :=
  let res := iterResidual inp s
  let wp := iterWidthProm inp s
  let ie := (inp.findPeaks (res.map (fun x => inp.sign * x)) wp.1 wp.2).map (· + s.idx_lo)
  { widthProm := wp
    idx_extrema := ie
    Nleft := ie.countP (fun i => decide (i < s.idx_ref))
    Nright := ie.countP (fun i => decide (s.idx_ref ≤ i))
    Nx := ie.length
    tEx := ie.map (fun i => inp.t.getD i 0)
    omegaEx := ie.map (fun i => inp.omega22.getD i 0)
    phaseEx := ie.map (fun i => inp.phase22.getD i 0) }

/-- The (possibly refined) `t_extrema`, `omega22_extrema`, `phase22_extrema`
arrays after the optional refinement block (lines 582-624). -/
def iterArrays (inp : TrackerInputs P) (s : TrackerState P) (d : DetectInfo) :
    List ℚ × List ℚ × List ℚ :=
  if inp.refine_extrema then inp.refineOracle d.idx_extrema s.p
  else (d.tEx, d.omegaEx, d.phaseEx)

/-- The updated periastron-advance estimate `K` (lines 628-631). -/
def iterK (inp : TrackerInputs P) (s : TrackerState P) (d : DetectInfo) : ℚ :=
  if 2 ≤ d.Nx then
    let phis := (iterArrays inp s d).2.2
    (phis.getLastD 0 - phis.headD 0) / (4 * inp.pi * ((d.Nx : ℚ) - 1))
  else s.K

/-- The updated `Count_Nright_short` (lines 645-646): incremented whenever
`Nright < Nafter`, never reset. -/
def iterCountShort (inp : TrackerInputs P) (s : TrackerState P) (d : DetectInfo) : ℕ :=
  if d.Nright < inp.Nafter then s.Count_Nright_short + 1 else s.Count_Nright_short

/-- Result of the window-adjustment block. -/
structure AdjustOut where
  idx_lo : ℕ
  idx_hi : ℕ
  idx_ref : ℕ
deriving DecidableEq

/-- The left-side half of the window-adjustment block (lines 652-688):
returns the updated `(idx_lo, idx_ref, Nright)`, or the line-677 exception
when `Nbefore` extrema cannot be found to the left and advancing `idx_ref`
is not permitted. -/
def iterAdjustLeft (inp : TrackerInputs P) (s : TrackerState P) (d : DetectInfo) (Kn : ℚ) :
    Except String (ℕ × ℕ × ℕ) :=
  if inp.Nbefore < d.Nleft then
    Except.ok
      ((d.idx_extrema.getD (d.Nleft - inp.Nbefore - 1) 0
        + d.idx_extrema.getD (d.Nleft - inp.Nbefore) 0) / 2, s.idx_ref, d.Nright)
  else if d.Nleft < inp.Nbefore then
    if s.idx_lo = 0 then
      if inp.increase_idx_ref_if_needed then
        if 2 ≤ d.Nright then
          let tmp := argmaxGeNat d.idx_extrema s.idx_ref
          Except.ok (s.idx_lo,
            (d.idx_extrema.getD tmp 0 + d.idx_extrema.getD (tmp + 1) 0) / 2,
            d.Nright - 1)
        else
          Except.ok (s.idx_lo, s.idx_ref, d.Nright)
      else
        Except.error "could not identify Nbefore extrema to the left of idx_ref"
    else
      let phase_lo := inp.phase22.getD s.idx_lo 0 - Kn * 4 * inp.pi * (6/10)
      Except.ok (argmaxGt inp.phase22 phase_lo, s.idx_ref, d.Nright)
  else
    Except.ok (s.idx_lo, s.idx_ref, d.Nright)

/-- The right-side half of the window-adjustment block (lines 689-717),
using the (possibly decremented) `Nright` value `Nr`. -/
def iterAdjustHi (inp : TrackerInputs P) (s : TrackerState P) (d : DetectInfo) (Kn : ℚ)
    (Nr : ℕ) : ℕ :=
  if inp.Nafter < Nr then
    (pyGetNat d.idx_extrema ((inp.Nafter : ℤ) - (Nr : ℤ))
      + pyGetNat d.idx_extrema ((inp.Nafter : ℤ) - (Nr : ℤ) - 1)) / 2
  else if Nr < inp.Nafter then
    if s.idx_hi < inp.phase22.length then
      let phase_hi := inp.phase22.getD s.idx_hi 0 + Kn * 4 * inp.pi * (6/10)
      let h := argmaxGt inp.phase22 phase_hi
      if h = 0 then inp.phase22.length else h
    else s.idx_hi
  else s.idx_hi

/-- The window-adjustment block (lines 650-718), entered when the left/right
counts do not match the targets. -/
def iterAdjust (inp : TrackerInputs P) (s : TrackerState P) (d : DetectInfo) (Kn : ℚ) :
    Except String AdjustOut :=
  match iterAdjustLeft inp s d Kn with
  | Except.error m => Except.error m
  | Except.ok (lo, ref, Nr) => Except.ok ⟨lo, iterAdjustHi inp s d Kn Nr, ref⟩

/-- `max_delta_omega` (lines 742-747). -/
def iterMaxDelta (inp : TrackerInputs P) (s : TrackerState P) (d : DetectInfo) : ℚ :=
  if d.Nx ≠ s.old_extrema.length then 10 ^ 99
  else maxQ (List.zipWith (fun a b => |a - b|) (iterArrays inp s d).2.1 s.old_extrema)

/-- Outcome of one iteration of the tracker's `while True:` loop. -/
inductive StepRes (P : Type) where
  | next : TrackerState P → StepRes P
  | done : TrackerResult P → StepRes P
  | err : String → StepRes P
deriving DecidableEq

/-- Does the step return from the function? -/
def StepRes.isDone : StepRes P → Bool
  | StepRes.done _ => true
  | _ => false

/-- One iteration of the `while True:` loop of `FindExtremaNearIdxRef`
(lines 517-807): detect extrema, return early when none were found or more
than 20 iterations have passed (line 565), optionally refine, update `K` and
`Count_Nright_short`, adjust the window on a count mismatch and `continue`
when it changed (line 725), and otherwise either return (stagnation check,
line 749, or convergence, line 764) or refit the envelope and loop. -/
def trackerStep (inp : TrackerInputs P) (s : TrackerState P) : StepRes P :=
  let itn := s.it + 1
  let d := iterDetect inp s
  if d.Nx = 0 ∨ 20 < itn then
    StepRes.done ⟨d.idx_extrema, s.p, s.K, s.idx_ref, d.tEx, d.omegaEx, d.phaseEx⟩
  else
    let a := iterArrays inp s d
    let Kn := iterK inp s d
    let Cn := iterCountShort inp s d
    let go : AdjustOut → StepRes P := fun ao =>
      if 5 ≤ Cn ∨ d.Nx < 5 ∨ 20 < itn then
        StepRes.done ⟨d.idx_extrema, s.p, Kn, ao.idx_ref, a.1, a.2.1, a.2.2⟩
      else if iterMaxDelta inp s d < inp.TOL then
        StepRes.done ⟨d.idx_extrema, s.p, Kn, ao.idx_ref, a.1, a.2.1, a.2.2⟩
      else
        StepRes.next { s with
          idx_lo := ao.idx_lo, idx_hi := ao.idx_hi, idx_ref := ao.idx_ref,
          K := Kn, p := inp.curveFit a.1 a.2.1 s.p, it := itn,
          old_extrema := a.2.1, Count_Nright_short := Cn, promCache := none }
    if d.Nleft ≠ inp.Nbefore ∨ d.Nright ≠ inp.Nafter then
      match iterAdjust inp s d Kn with
      | Except.error m => StepRes.err m
      | Except.ok ao =>
        if ((ao.idx_lo : ℤ), (ao.idx_hi : ℤ)) ≠ (s.old_idx_lo, s.old_idx_hi) then
          StepRes.next { s with
            idx_lo := ao.idx_lo, idx_hi := ao.idx_hi, idx_ref := ao.idx_ref,
            K := Kn, it := itn, Count_Nright_short := Cn,
            old_idx_lo := (ao.idx_lo : ℤ), old_idx_hi := (ao.idx_hi : ℤ),
            promCache := some d.widthProm }
        else go ao
    else go ⟨s.idx_lo, s.idx_hi, s.idx_ref⟩

/-- Iterate `trackerStep` with fuel.  `none` means the fuel ran out, which is
proved unreachable for the fuel used by `FindExtremaNearIdxRef`. -/
def trackerRun (inp : TrackerInputs P) : TrackerState P → ℕ → Option (Except String (TrackerResult P))
  | _, 0 => none
  | s, fuel + 1 =>
    match trackerStep inp s with
    | StepRes.next sn => trackerRun inp sn fuel
    | StepRes.done r => some (Except.ok r)
    | StepRes.err m => some (Except.error m)

/-- The list of states at which loop iterations start, in order (a pure
observer of the execution used to state trace-level properties). -/
def trackerStates (inp : TrackerInputs P) : TrackerState P → ℕ → List (TrackerState P)
  | s, 0 => [s]
  | s, fuel + 1 =>
    s :: (match trackerStep inp s with
          | StepRes.next sn => trackerStates inp sn fuel
          | _ => [])

/-- The initial loop state of `FindExtremaNearIdxRef` (lines 482-516). -/
def initTrackerState (inp : TrackerInputs P) (idx_ref : ℕ) (K : ℚ) (p : P) : TrackerState P :=
  let DeltaPhase := 4 * inp.pi * K
  let phiRef := inp.phase22.getD idx_ref 0
  let lo := argmaxGt inp.phase22 (phiRef - DeltaPhase * (inp.Nbefore : ℚ))
  let hi0 := argmaxGt inp.phase22 (phiRef + DeltaPhase * (inp.Nafter : ℚ))
  let hi := if hi0 = 0 then inp.phase22.length else hi0
  { idx_lo := lo, idx_hi := hi, idx_ref := idx_ref, K := K, p := p, it := 0,
    old_extrema := List.replicate (inp.Nbefore + inp.Nafter) 0,
    old_idx_lo := -1, old_idx_hi := -1, Count_Nright_short := 0, promCache := none }

/-- `FindExtremaNearIdxRef(t, phase22, omega22, idx_ref, sign, Nbefore,
Nafter, K, f_fit, p_initial, bounds, TOL, ...)`: run the loop from the
initial state.  Fuel 22 is sufficient because the loop unconditionally
returns once `it > 20` (line 565). -/
def FindExtremaNearIdxRef (inp : TrackerInputs P) (idx_ref : ℕ) (K : ℚ) (p_initial : P) :
    Option (Except String (TrackerResult P)) :=
  trackerRun inp (initTrackerState inp idx_ref K p_initial) 22

/-! ### Observers on a loop iteration

Pure observers of the branch taken by `trackerStep`, used to state
claim-level properties about individual iterations. -/

/-- The line-565 early-exit condition (`N_extrema == 0 or it > 20`). -/
def iterEarly (inp : TrackerInputs P) (s : TrackerState P) : Prop :=
  (iterDetect inp s).Nx = 0 ∨ 20 < s.it + 1

instance (inp : TrackerInputs P) (s : TrackerState P) : Decidable (iterEarly inp s) := by
  unfold iterEarly; infer_instance

/-- The line-650 count-mismatch condition. -/
def iterMismatch (inp : TrackerInputs P) (s : TrackerState P) : Prop :=
  (iterDetect inp s).Nleft ≠ inp.Nbefore ∨ (iterDetect inp s).Nright ≠ inp.Nafter

instance (inp : TrackerInputs P) (s : TrackerState P) : Decidable (iterMismatch inp s) := by
  unfold iterMismatch; infer_instance

/-- Whether the iteration (past the early exit) falls through to the
stability/convergence checks at lines 742-772: either the counts match, or
the adjusted window equals the last recorded one (line 719). -/
def iterFallThrough (inp : TrackerInputs P) (s : TrackerState P) : Bool :=
  let d := iterDetect inp s
  if d.Nleft ≠ inp.Nbefore ∨ d.Nright ≠ inp.Nafter then
    match iterAdjust inp s d (iterK inp s d) with
    | Except.error _ => false
    | Except.ok ao => decide (((ao.idx_lo : ℤ), (ao.idx_hi : ℤ)) = (s.old_idx_lo, s.old_idx_hi))
  else true

/-- Whether the iteration (past the early exit) takes the line-725
`continue` because the window changed. -/
def iterWindowChanged (inp : TrackerInputs P) (s : TrackerState P) : Bool :=
  let d := iterDetect inp s
  if d.Nleft ≠ inp.Nbefore ∨ d.Nright ≠ inp.Nafter then
    match iterAdjust inp s d (iterK inp s d) with
    | Except.error _ => false
    | Except.ok ao => decide (((ao.idx_lo : ℤ), (ao.idx_hi : ℤ)) ≠ (s.old_idx_lo, s.old_idx_hi))
  else false

/-- Invariant of the loop state: the recorded window `(old_idx_lo,
old_idx_hi)` is either still the `(-1, -1)` sentinel (line 494) or equals the
current window (it is updated to the current window whenever the window
changes, line 722). -/
def StateInv (s : TrackerState P) : Prop :=
  (s.old_idx_lo = -1 ∧ s.old_idx_hi = -1) ∨
  (s.old_idx_lo = (s.idx_lo : ℤ) ∧ s.old_idx_hi = (s.idx_hi : ℤ))

/-- Specification of `scipy.signal.find_peaks` output used by the
window-count theorems: the returned indices are strictly increasing with
gaps of at least 2 samples (two adjacent samples cannot both be strict local
maxima), and every peak is an interior point of the array it was searched
in. -/
def PeaksSpec (inp : TrackerInputs P) : Prop :=
  ∀ xs w pr, (inp.findPeaks xs w pr).Chain' (fun a b => a + 2 ≤ b) ∧
    ∀ i ∈ inp.findPeaks xs w pr, 1 ≤ i ∧ i + 2 ≤ xs.length

/-- Weaker specification of `scipy.signal.find_peaks`: the returned indices
are strictly increasing. -/
def PeaksSorted (inp : TrackerInputs P) : Prop :=
  ∀ xs w pr, (inp.findPeaks xs w pr).Chain' (· < ·)

/-! ## The driving loop of `find_extrema` (STEP 2, lines 280-369) -/

/-- The mutable state of the driving loop: confirmed extrema, the refined
per-extremum arrays, and the warm-start values carried between tracker
calls. -/
structure DriveState (P : Type) where
  extrema : List ℕ
  t_extrema_refined : List ℚ
  omega22_extrema_refined : List ℚ
  phase22_extrema_refined : List ℚ
  K : ℚ
  idx_ref : ℕ
  p : P
  count : ℕ
deriving DecidableEq

/-- Append the `k`-th extremum record of a tracker result (lines 329-343). -/
def driveAppendOne (st : DriveState P) (r : TrackerResult P) (k : ℕ) : DriveState P :=
  { st with
    extrema := st.extrema ++ [r.idx_extrema.getD k 0]
    t_extrema_refined := st.t_extrema_refined ++ [r.t_extrema.getD k 0]
    omega22_extrema_refined := st.omega22_extrema_refined ++ [r.omega22_extrema.getD k 0]
    phase22_extrema_refined := st.phase22_extrema_refined ++ [r.phase22_extrema.getD k 0] }

/-- The per-call append logic (lines 323-343): when at least `2N-1` extrema
were found, on the first call emit the leftmost `N` extrema, and always emit
the `N`-th (centered) extremum. -/
def driveAppend (N : ℕ) (st : DriveState P) (r : TrackerResult P) (countn : ℕ) : DriveState P :=
  if 2 * N - 1 ≤ r.idx_extrema.length then
    let st1 := if countn = 1 then (List.range N).foldl (fun acc k => driveAppendOne acc r k) st else st
    driveAppendOne st1 r N
  else st

/-- The message of the line-356 safety exception. -/
def driveSafetyMsg : String :=
  "Detected more than 1000 extrema. This has triggered a safety exception."

/-- The driving `while True:` loop (lines 304-357), parameterized by the
tracker `tracker idx_ref K p` (instantiated with `FindExtremaNearIdxRef`
applied to the fixed inputs): count the call, run the tracker, append
confirmed extrema, stop normally when fewer than `2N+1` extrema were
returned, otherwise advance `idx_ref` and raise the line-356 safety
exception once more than 1000 calls were made. -/
def findExtremaLoop (tracker : ℕ → ℚ → P → Option (Except String (TrackerResult P))) (N : ℕ) :
    DriveState P → ℕ → Option (Except String (DriveState P))
  | _, 0 => none
  | st, fuel + 1 =>
    let countn := st.count + 1
    match tracker st.idx_ref st.K st.p with
    | none => none
    | some (Except.error m) => some (Except.error m)
    | some (Except.ok r) =>
      let stBase : DriveState P :=
        { st with K := r.K, p := r.p, idx_ref := r.idx_ref, count := countn }
      let st2 := driveAppend N stBase r countn
      if r.idx_extrema.length < 2 * N + 1 then some (Except.ok st2)
      else
        let st3 := { st2 with
          idx_ref := (r.idx_extrema.getD N 0 + r.idx_extrema.getD (N + 1) 0) / 2 }
        if 1000 < countn then some (Except.error driveSafetyMsg)
        else findExtremaLoop tracker N st3 fuel

/-- STEP 2 of `eccDefinitionUsingFrequencyFits.find_extrema` (lines 294-357):
seed `K = 1.2` and `idx_ref`, raise when the data set is too short, and run
the driving loop with the embedded tracker.  Fuel 1002 is sufficient because
the loop raises once `count > 1000`. -/
def findExtremaDrive (inp : TrackerInputs P) (N : ℕ) (p_global : P) :
    Option (Except String (DriveState P)) :=
  let K : ℚ := 12 / 10
  let idx_ref := argmaxGt inp.phase22 (inp.phase22.headD 0 + K * ((N : ℚ) - 1/1000) * 4 * inp.pi)
  if idx_ref = 0 then some (Except.error "data set too short.")
  else
    findExtremaLoop (fun i k p => FindExtremaNearIdxRef inp i k p) N
      ⟨[], [], [], [], K, idx_ref, p_global, 0⟩ 1002

/-! ## Concrete instantiations used by counterexamples and witnesses

All data is exact rational data; the oracles are concrete functions standing
for particular (plausible) behaviors of the external numerical routines. -/

/-- A tracker input whose peak detector finds no extrema (e.g. zero
oscillation amplitude): constant `omega22 = 1`, trivial envelope. -/
def c1inp : TrackerInputs Unit :=
  { t := (List.range 20).map (fun i => (i : ℚ))
    phase22 := (List.range 20).map (fun i => (i : ℚ))
    omega22 := List.replicate 20 1
    sign := 1
    Nbefore := 3
    Nafter := 4
    ffit := fun _ _ => 0
    curveFit := fun _ _ p => p
    findPeaks := fun _ _ _ => []
    refineOracle := fun _ _ => ([], [], [])
    TOL := 1/100000000
    increase_idx_ref_if_needed := true
    refine_extrema := false
    pi := 3 }

/-- The (empty) tracker result of `FindExtremaNearIdxRef c1inp 5 1 ()`. -/
def c1res : TrackerResult Unit := ⟨[], (), 1, 5, [], [], []⟩

/-- The driving-loop state at the start of the first call for `c1inp`. -/
def c1st : DriveState Unit := ⟨[], [], [], [], 1, 5, (), 0⟩

/-- Tracker input realizing a window-adjustment limit cycle: with
`Nbefore = 1`, `Nafter = 2` and `idx_ref = 10`, the peak detector (keyed on
the residual's first sample, which identifies the window) alternates between
window `[4,20)` with extrema `{6,8,13}` (two on the left) and window
`[7,23)` with extrema `{10,19,21}` (none on the left), so every iteration
changes the window and the loop only stops at the `it > 20` iteration cap,
returning the freshly detected `{10,19,21}`. -/
def c2inp : TrackerInputs Unit :=
  { t := (List.range 25).map (fun i => (i : ℚ))
    phase22 := (List.range 25).map (fun i => (i : ℚ))
    omega22 := (List.range 25).map (fun i => 1 + (i : ℚ)/100)
    sign := 1
    Nbefore := 1
    Nafter := 2
    ffit := fun _ _ => 0
    curveFit := fun _ _ p => p
    findPeaks := fun xs _ _ =>
      if xs.headD 0 = 105/100 then [10, 14, 16]
      else if xs.headD 0 = 104/100 then [2, 4, 9]
      else if xs.headD 0 = 107/100 then [3, 12, 14]
      else []
    refineOracle := fun _ _ => ([], [], [])
    TOL := 1/1000000
    increase_idx_ref_if_needed := true
    refine_extrema := false
    pi := 3 }

/-- The result of `FindExtremaNearIdxRef c2inp 10 (1/2) ()`: a full-length
result (3 = Nbefore+Nafter extrema) returned by the iteration cap, with 0
(not `Nbefore = 1`) extrema strictly before the returned reference index. -/
def c2res : TrackerResult Unit :=
  { idx_extrema := [10, 19, 21], p := (), K := 7/24, idx_ref := 10,
    t_extrema := [10, 19, 21], omega22_extrema := [110/100, 119/100, 121/100],
    phase22_extrema := [10, 19, 21] }

/-- Tracker input with refinement disabled whose peak detector returns two
extrema straddling `idx_ref = 10` (targets `Nbefore = Nafter = 1`). -/
def c4inp : TrackerInputs Unit :=
  { t := (List.range 20).map (fun i => (i : ℚ))
    phase22 := (List.range 20).map (fun i => (i : ℚ))
    omega22 := List.replicate 20 1
    sign := 1
    Nbefore := 1
    Nafter := 1
    ffit := fun _ _ => 0
    curveFit := fun _ _ p => p
    findPeaks := fun _ _ _ => [8, 12]
    refineOracle := fun _ _ => ([], [], [])
    TOL := 1/100000000
    increase_idx_ref_if_needed := true
    refine_extrema := false
    pi := 3 }

/-- The result of `FindExtremaNearIdxRef c4inp 10 1 ()`: although
`refine_extrema = false`, the returned "refined" arrays hold the grid-point
data at the two extrema — they are not empty. -/
def c4res : TrackerResult Unit :=
  ⟨[8, 12], (), 1/3, 10, [8, 12], [1, 1], [8, 12]⟩

/-- A tracker result with `2*3+1` extrema, used as a constant tracker
response that never signals end-of-data. -/
def c8res : TrackerResult Unit :=
  ⟨[2, 4, 6, 8, 10, 12, 14], (), 1, 8, [], [], []⟩

/-- Like `c4inp` but with a peak detector satisfying `PeaksSpec` (interior,
sorted, gap-2 peaks on any input array): it finds the two extrema `{8, 12}`
whenever the window is long enough. -/
def c2winp : TrackerInputs Unit :=
  { t := (List.range 20).map (fun i => (i : ℚ))
    phase22 := (List.range 20).map (fun i => (i : ℚ))
    omega22 := List.replicate 20 1
    sign := 1
    Nbefore := 1
    Nafter := 1
    ffit := fun _ _ => 0
    curveFit := fun _ _ p => p
    findPeaks := fun xs _ _ => if 16 ≤ xs.length then [8, 12] else []
    refineOracle := fun _ _ => ([], [], [])
    TOL := 1/100000000
    increase_idx_ref_if_needed := true
    refine_extrema := false
    pi := 3 }

/-- The result of `FindExtremaNearIdxRef c2winp 10 1 ()`: a full-length
(`Nbefore + Nafter = 2`) result with one extremum on each side of
`idx_ref = 10`. -/
def c2wres : TrackerResult Unit :=
  ⟨[8, 12], (), 1/3, 10, [8, 12], [1, 1], [8, 12]⟩

/-! ### Concrete data for C5 and C6: alternating short/full iterations -/

/-- Length of the longest run of consecutive `true` entries. -/
def maxRunTrue (l : List Bool) : ℕ :=
  (l.foldl (fun acc b => if b then (max acc.1 (acc.2 + 1), acc.2 + 1) else (acc.1, 0))
    ((0 : ℕ), (0 : ℕ))).1

/-- Times `0, 1, ..., 49` (also used as `phase22`: phase grows linearly). -/
def c5t : List ℚ := (List.range 50).map (fun i => (i : ℚ))

/-- `omega22` samples `1 + i/1000`: slowly increasing frequency. -/
def c5omega : List ℚ := (List.range 50).map (fun i => 1 + (i : ℚ)/1000)

/-- A deterministic peak detector for the C5/C6 run, keyed on the window
length and the first residual value (which encodes the current fit
parameter): odd iterations see 6 extrema with only 3 at or after
`idx_ref = 20` (short on the right), even iterations see the full 7, with
the last extremum drifting right so the convergence check never fires. -/
def c5peaks (xs : List ℚ) ( _ : ℤ) ( _ : ℚ) : List ℕ :=
  let k := (xs.length, xs.headD 0)
  if k = (21, 1012/1000) then [2, 4, 6, 9, 11, 19]
  else if k = (24, 1012/1000) then [2, 4, 6, 9, 11, 19, 21]
  else if k = (24, 12/1000) then [2, 4, 6, 9, 11, 19]
  else if k = (27, 12/1000) then [2, 4, 6, 9, 11, 19, 22]
  else if k = (27, -988/1000) then [2, 4, 6, 9, 11, 19]
  else if k = (30, -988/1000) then [2, 4, 6, 9, 11, 19, 24]
  else if k = (30, -1988/1000) then [2, 4, 6, 9, 11, 19]
  else if k = (33, -1988/1000) then [2, 4, 6, 9, 11, 19, 26]
  else if k = (33, -2988/1000) then [2, 4, 6, 9, 11, 19]
  else if k = (36, -2988/1000) then [2, 4, 6, 9, 11, 19, 28]
  else []

/-- Tracker inputs whose run alternates short and full iterations: every
short iteration grows the window on the right (so the loop continues), and
every full iteration refits (incrementing the parameter), so the shorts are
never consecutive while `Count_Nright_short` still accumulates to 5. -/
def c5inp : TrackerInputs ℚ :=
  { t := c5t
    phase22 := c5t
    omega22 := c5omega
    sign := 1
    Nbefore := 3
    Nafter := 4
    ffit := fun _ p => p
    curveFit := fun _ _ p => p + 1
    findPeaks := c5peaks
    refineOracle := fun _ _ => ([], [], [])
    TOL := 1/1000000
    increase_idx_ref_if_needed := true
    refine_extrema := false
    pi := 3 }

/-- The initial state of `FindExtremaNearIdxRef c5inp 20 (1/4) 0`: window
`[12, 33)` around `idx_ref = 20`. -/
def c5s0 : TrackerState ℚ := initTrackerState c5inp 20 (1/4) 0

/-- The states at which the ten loop iterations of the C5 run start. -/
def c5states : List (TrackerState ℚ) := trackerStates c5inp c5s0 22

/-- A peak detector for the C6 run, keyed on window length and first
residual value: the first iteration is one short on the right, later
iterations see the full five extrema. -/
def c6rpeaks (xs : List ℚ) ( _ : ℤ) ( _ : ℚ) : List ℕ :=
  let k := (xs.length, xs.headD 0)
  if k = (10, 9/4) then [0, 2, 4, 6]
  else if k = (12, 9/4) then [0, 2, 4, 6, 8]
  else if k = (12, 5/4) then [0, 2, 4, 6, 8]
  else []

/-- Tracker inputs for the C6 counterexample: the first iteration grows the
window on the right (window-change `continue`, caching the
`width`/`prominence` pair), the second re-fits on the enlarged window, and
the third recomputes the pair on the unchanged window. -/
def c6rinp : TrackerInputs ℚ :=
  { t := (List.range 18).map (fun i => (i : ℚ))
    phase22 := (List.range 18).map (fun i => (i : ℚ))
    omega22 := (List.range 18).map (fun i => 1 + (i : ℚ)/4)
    sign := 1
    Nbefore := 2
    Nafter := 3
    ffit := fun _ p => p
    curveFit := fun _ _ p => p + 1
    findPeaks := c6rpeaks
    refineOracle := fun _ _ => ([], [], [])
    TOL := 1/1000
    increase_idx_ref_if_needed := true
    refine_extrema := false
    pi := 3 }

/-- The initial state of `FindExtremaNearIdxRef c6rinp 8 (1/6) 0`: window
`[5, 15)` (proved equal to `initTrackerState` in the counterexample). -/
def c6rs0 : TrackerState ℚ :=
  { idx_lo := 5, idx_hi := 15, idx_ref := 8, K := 1/6, p := 0, it := 0,
    old_extrema := [0, 0, 0, 0, 0], old_idx_lo := -1, old_idx_hi := -1,
    Count_Nright_short := 0, promCache := none }

/-- The state starting the second iteration of the C6 run (window
`[5, 17)`, prominence pair cached by the first iteration's window change);
the counterexample proves `trackerStep` sends `c6rs0` to it. -/
def c6rs1 : TrackerState ℚ :=
  { idx_lo := 5, idx_hi := 17, idx_ref := 8, K := 1/6, p := 0, it := 1,
    old_extrema := [0, 0, 0, 0, 0], old_idx_lo := 5, old_idx_hi := 17,
    Count_Nright_short := 1, promCache := some (0, 27/400) }

/-- The state starting the third iteration of the C6 run: same window
`[5, 17)` as `c6rs1`, but the cache was cleared by the second iteration's
re-fit; the counterexample proves `trackerStep` sends `c6rs1` to it. -/
def c6rs2 : TrackerState ℚ :=
  { idx_lo := 5, idx_hi := 17, idx_ref := 8, K := 1/6, p := 1, it := 2,
    old_extrema := [9/4, 11/4, 13/4, 15/4, 17/4],
    old_idx_lo := 5, old_idx_hi := 17,
    Count_Nright_short := 1, promCache := none }

/-- A minimal input whose first iteration is a window-change `continue`
(the adjusted window always differs from the `(-1, -1)` sentinel). -/
def c6winp : TrackerInputs Unit :=
  { t := (List.range 8).map (fun i => (i : ℚ))
    phase22 := (List.range 8).map (fun i => (i : ℚ))
    omega22 := List.replicate 8 1
    sign := 1
    Nbefore := 1
    Nafter := 1
    ffit := fun _ _ => 0
    curveFit := fun _ _ p => p
    findPeaks := fun _ _ _ => [1]
    refineOracle := fun _ _ => ([], [], [])
    TOL := 1/1000
    increase_idx_ref_if_needed := true
    refine_extrema := false
    pi := 3 }

/-- The initial loop state of the `c6winp` run: window `[3, 5)`. -/
def c6ws0 : TrackerState Unit := initTrackerState c6winp 3 (1/12) ()

/-- The state after the first `c6winp` iteration: the window-change
`continue` carried the `width`/`prominence` pair over in the cache. -/
def c6ws1 : TrackerState Unit :=
  { idx_lo := 3, idx_hi := 5, idx_ref := 3, K := 1/12, p := (), it := 1,
    old_extrema := [0, 0], old_idx_lo := 3, old_idx_hi := 5,
    Count_Nright_short := 0, promCache := some (3, 0) }

/-- The state starting the tenth (returning) iteration of the C5 run
(fields computed by running the loop). -/
def c5slast : TrackerState ℚ :=
  { idx_lo := 12, idx_hi := 48, idx_ref := 20, K := 17/60, p := 4, it := 9,
    old_extrema := [1014/1000, 1016/1000, 1018/1000, 1021/1000, 1023/1000, 1031/1000,
      1038/1000],
    old_idx_lo := 12, old_idx_hi := 48, Count_Nright_short := 5,
    promCache := some (2, 3/3125) }

/-- The result of the C5 run: returned by the line-749 stagnation exit at
iteration 10 with 7 extrema. -/
def c5res : TrackerResult ℚ :=
  { idx_extrema := [14, 16, 18, 21, 23, 31, 40]
    p := 4
    K := 13/36
    idx_ref := 20
    t_extrema := [14, 16, 18, 21, 23, 31, 40]
    omega22_extrema := [1014/1000, 1016/1000, 1018/1000, 1021/1000, 1023/1000, 1031/1000,
      1040/1000]
    phase22_extrema := [14, 16, 18, 21, 23, 31, 40] }

/-! ## Generic list lemmas -/

/-- `foldl max` is bounded by any common upper bound. -/
lemma foldl_max_le {c : ℚ} : ∀ (xs : List ℚ) (x : ℚ), x ≤ c → (∀ y ∈ xs, y ≤ c) →
    xs.foldl max x ≤ c := by
  intro xs
  induction xs with
  | nil => intro x hx _; simpa using hx
  | cons y ys ih =>
    intro x hx hall
    simp only [List.foldl_cons]
    exact ih (max x y) (max_le hx (hall y (by simp))) (fun z hz => hall z (by simp [hz]))

/-- `maxQ` is bounded by any upper bound of a nonempty list. -/
lemma maxQ_le_of_forall {l : List ℚ} {c : ℚ} (hne : l ≠ []) (h : ∀ x ∈ l, x ≤ c) :
    maxQ l ≤ c := by
  match l with
  | [] => exact absurd rfl hne
  | x :: xs =>
    simp only [maxQ]
    exact foldl_max_le xs x (h x (List.mem_cons_self x xs)) (fun y hy => h y (by simp [hy]))

/-- Every element of a `≤`-sorted list is at most its last element. -/
lemma mem_le_getLastD {l : List ℚ} (hs : l.Chain' (· ≤ ·)) : ∀ x ∈ l, x ≤ l.getLastD 0 := by
  induction l with
  | nil => intro x hx; cases hx
  | cons a l ih =>
    intro x hx
    match l, hs, hx with
    | [], _, hx =>
      simp only [List.mem_singleton] at hx
      simp [hx]
    | b :: l', hs, hx =>
      have h1 : a ≤ b := (List.chain'_cons.mp hs).1
      have h2 := ih (List.chain'_cons.mp hs).2
      have hlast : (a :: b :: l').getLastD 0 = (b :: l').getLastD 0 := by simp
      rw [hlast]
      rcases List.mem_cons.mp hx with rfl | hx'
      · exact le_trans h1 (h2 b (List.mem_cons_self b l'))
      · exact h2 x hx'

/-- Complementary counts of `< ref` and `ref ≤` elements. -/
lemma countP_lt_add_countP_ge (l : List ℕ) (ref : ℕ) :
    l.countP (fun i => decide (i < ref)) + l.countP (fun i => decide (ref ≤ i)) = l.length := by
  have h := List.length_eq_countP_add_countP (fun i : ℕ => decide (i < ref)) l
  have h2 : l.countP (fun a => decide (¬ decide (a < ref) = true)) =
      l.countP (fun i => decide (ref ≤ i)) := by
    refine List.countP_congr ?_
    intro x _
    simp [Nat.not_lt]
  rw [h2] at h
  omega

/-- In a strictly sorted list the elements below / at-or-above a threshold
split positionally at the count of the small elements. -/
lemma sortedSplit (ref : ℕ) : ∀ (l : List ℕ), l.Pairwise (· < ·) →
    ∀ i (h : i < l.length),
      (i < l.countP (fun x => decide (x < ref)) → l[i] < ref) ∧
      (l.countP (fun x => decide (x < ref)) ≤ i → ref ≤ l[i]) := by
  intro l
  induction l with
  | nil => intro _ i h; simp at h
  | cons a t ih =>
    intro hp i h
    have hat := (List.pairwise_cons.mp hp).1
    have hpt := (List.pairwise_cons.mp hp).2
    by_cases ha : a < ref
    · have hc : (a :: t).countP (fun x => decide (x < ref)) =
          t.countP (fun x => decide (x < ref)) + 1 := by
        simp [List.countP_cons, ha]
      match i, h with
      | 0, h =>
        refine ⟨fun _ => by simpa using ha, fun hi => ?_⟩
        rw [hc] at hi
        omega
      | i + 1, h =>
        have hrec := ih hpt i (by simpa using h)
        rw [hc]
        refine ⟨fun hi => ?_, fun hi => ?_⟩
        · simpa using hrec.1 (by omega)
        · simpa using hrec.2 (by omega)
    · have hge : ref ≤ a := Nat.not_lt.mp ha
      have ht0 : t.countP (fun x => decide (x < ref)) = 0 := by
        rw [List.countP_eq_zero]
        intro x hx
        have := hat x hx
        simp only [decide_eq_true_eq]
        omega
      have hc : (a :: t).countP (fun x => decide (x < ref)) = 0 := by
        simp [List.countP_cons, ha, ht0]
      rw [hc]
      match i, h with
      | 0, h => exact ⟨fun hi => by omega, fun _ => by simpa using hge⟩
      | i + 1, h =>
        refine ⟨fun hi => by omega, fun _ => ?_⟩
        simp only [List.getElem_cons_succ]
        have hlen : i < t.length := by
          simp only [List.length_cons] at h
          omega
        have hmem : t[i] ∈ t := List.getElem_mem hlen
        have := hat _ hmem
        omega

/-- For a strictly sorted index list with at least two elements at or above
`ref`, `np.argmax(idx_extrema >= idx_ref)` returns the count `L` of elements
below `ref`, positions `L` and `L+1` exist, and both are at or above `ref`. -/
lemma sorted_ref_facts {l : List ℕ} (hs : l.Chain' (· < ·)) {ref : ℕ}
    (h2 : 2 ≤ l.countP (fun i => decide (ref ≤ i))) :
    argmaxGeNat l ref = l.countP (fun i => decide (i < ref)) ∧
    l.countP (fun i => decide (i < ref)) + 1 < l.length ∧
    ref ≤ l.getD (l.countP (fun i => decide (i < ref))) 0 ∧
    ref ≤ l.getD (l.countP (fun i => decide (i < ref)) + 1) 0 := by
  have hp : l.Pairwise (· < ·) := List.chain'_iff_pairwise.mp hs
  have hsum := countP_lt_add_countP_ge l ref
  have hLlen : l.countP (fun i => decide (i < ref)) + 1 < l.length := by omega
  have hsplit := sortedSplit ref l hp
  have hcplt : l.countP (fun i => decide (i < ref)) < l.length := by omega
  have hgetL : ref ≤ l.get ⟨l.countP (fun i => decide (i < ref)), hcplt⟩ :=
    (hsplit _ hcplt).2 (le_refl _)
  have hgetL1 : ref ≤ l.get ⟨l.countP (fun i => decide (i < ref)) + 1, hLlen⟩ :=
    (hsplit _ hLlen).2 (by omega)
  refine ⟨?_, hLlen, ?_, ?_⟩
  · unfold argmaxGeNat
    have hfi : List.findIdx? (fun i => decide (ref ≤ i)) l =
        some (l.countP (fun i => decide (i < ref))) := by
      rw [List.findIdx?_eq_some_iff_getElem]
      refine ⟨by omega, by simpa using hgetL, ?_⟩
      intro j hj
      have := (hsplit j (by omega)).1 (by omega)
      simp only [decide_eq_true_eq, Nat.not_le]
      omega
    rw [hfi]
    rfl
  · rw [List.getD_eq_getElem l 0 (by omega)]
    exact hgetL
  · rw [List.getD_eq_getElem l 0 hLlen]
    exact hgetL1

/-- A count determined by a positional split point. -/
lemma countP_eq_of_split {α} (p : α → Bool) : ∀ (l : List α) (k : ℕ), k ≤ l.length →
    (∀ i (h : i < l.length), i < k → p (l[i]) = true) →
    (∀ i (h : i < l.length), k ≤ i → p (l[i]) = false) →
    l.countP p = k := by
  intro l
  induction l with
  | nil =>
    intro k hk _ _
    simp only [List.length_nil, Nat.le_zero] at hk
    simp [hk]
  | cons a t ih =>
    intro k hk h1 h2
    cases k with
    | zero =>
      have hpa : p a = false := h2 0 (by simp) (by omega)
      have ht : t.countP p = 0 := by
        refine ih 0 (by omega) (fun i h hi => by omega) (fun i h _ => ?_)
        have := h2 (i + 1) (by simpa using h) (by omega)
        simpa using this
      simp [List.countP_cons, hpa, ht]
    | succ k' =>
      have hpa : p a = true := h1 0 (by simp) (by omega)
      have ht : t.countP p = k' := by
        refine ih k' (by simpa using hk) (fun i h hi => ?_) (fun i h hi => ?_)
        · have := h1 (i + 1) (by simpa using h) (by omega)
          simpa using this
        · have := h2 (i + 1) (by simpa using h) (by omega)
          simpa using this
      simp [List.countP_cons, hpa, ht]

/-- For a sorted list with gaps of at least 2 and at least two elements at or
above `ref`, the integer midpoint `m` of the elements at positions `L`,
`L+1` (where `L` counts the elements below `ref`) splits the list with
exactly `L+1` elements strictly below `m`. -/
lemma counts_around_mid {l : List ℕ} (hp : l.Pairwise (· < ·)) {L : ℕ}
    (hL : L + 1 < l.length) {m : ℕ}
    (hgap : l.getD L 0 + 2 ≤ l.getD (L + 1) 0)
    (hm : m = (l.getD L 0 + l.getD (L + 1) 0) / 2) :
    l.countP (fun i => decide (i < m)) = L + 1 ∧
    l.countP (fun i => decide (m ≤ i)) = l.length - (L + 1) := by
  have hpg : ∀ i j (hi : i < l.length) (hj : j < l.length), i < j →
      l.getD i 0 < l.getD j 0 := by
    intro i j hi hj hij
    have hg := List.pairwise_iff_get.mp hp ⟨i, hi⟩ ⟨j, hj⟩ hij
    rw [List.get_eq_getElem, List.get_eq_getElem] at hg
    rw [List.getD_eq_getElem l 0 hi, List.getD_eq_getElem l 0 hj]
    exact hg
  have hmlo : l.getD L 0 < m := by omega
  have hmhi : m ≤ l.getD (L + 1) 0 := by omega
  have hcount : l.countP (fun i => decide (i < m)) = L + 1 := by
    refine countP_eq_of_split _ l (L + 1) (by omega) (fun i h hi => ?_) (fun i h hi => ?_)
    · simp only [decide_eq_true_eq]
      rw [← List.getD_eq_getElem l 0 h]
      rcases Nat.lt_or_ge i L with hlt | hge
      · have := hpg i L h (by omega) hlt
        omega
      · have hieq : i = L := by omega
        subst hieq
        omega
    · simp only [decide_eq_false_iff_not, Nat.not_lt]
      rw [← List.getD_eq_getElem l 0 h]
      rcases Nat.lt_or_ge (L + 1) i with hlt | hge
      · have := hpg (L + 1) i hL h hlt
        omega
      · have hieq : i = L + 1 := by omega
        subst hieq
        omega
  refine ⟨hcount, ?_⟩
  have hsum := countP_lt_add_countP_ge l m
  omega

/-! ## Claim theorems: C10, C3, C7 -/

/-- C10: `eccDefinitionUsingAmplitude.find_extrema` raises exactly when
`extrema_type` is not one of `maxima`, `pericenters`, `minima`, `apocenters`,
while `eccDefinitionUsingFrequencyFits.find_extrema` raises exactly when
`extrema_type` is not one of `maxima`, `peaks`, `minima`, `troughs`; in
particular `pericenters` and `apocenters` are rejected by the
frequency-fits method. -/
theorem extrema_type_alias_sets (s : String) :
    (exceptIsError (amplitudeExtremaSign s) = true ↔
      ¬ (s = "maxima" ∨ s = "pericenters" ∨ s = "minima" ∨ s = "apocenters")) ∧
    (exceptIsError (freqFitsExtremaSign s) = true ↔
      ¬ (s = "maxima" ∨ s = "peaks" ∨ s = "minima" ∨ s = "troughs")) ∧
    exceptIsError (freqFitsExtremaSign "pericenters") = true ∧
    exceptIsError (freqFitsExtremaSign "apocenters") = true := by
  refine ⟨?_, ?_, by decide, by decide⟩ <;>
  · simp only [amplitudeExtremaSign, freqFitsExtremaSign, List.mem_cons,
      List.not_mem_nil, or_false]
    split_ifs with h1 h2 <;> simp [exceptIsError] <;> tauto

/-- C3 counterexample: at the boundary `t = T` (here `t = [1]`, `T = 1`, so
`max(t) ≥ T` holds) `envelope_fitting_function.__call__` does NOT raise: the
guard is the strict comparison `t.max() > T`, so the call returns a value.
The claim states it must fail whenever any `t ≥ T`. -/
theorem envelope_boundary_no_error :
    envelopeCall (fun _ _ => 0) 0 [1] 1 1 1 = Except.ok [0] ∧ (1 : ℚ) ≤ maxQ [1] := by
  constructor
  · unfold envelopeCall
    rw [if_neg (by norm_num [maxQ])]
    simp [envelopeA, envelopeN]
  · norm_num [maxQ]

/-- C3 (amended): `envelope_fitting_function.__call__` fails exactly when
`max(t) > T` strictly (at `max(t) = T` it evaluates and returns), and when
`max(t) ≤ T` it returns `A*(T-t)**n` with `n = -(T-t0)*f1/f0` and
`A = f0*(T-t0)**(-n)` (the real power function is the parameter `pw`). -/
theorem envelope_call_spec (pw : ℚ → ℚ → ℚ) (t0 : ℚ) (ts : List ℚ) (f0 f1 T : ℚ) :
    (exceptIsError (envelopeCall pw t0 ts f0 f1 T) = true ↔ T < maxQ ts) ∧
    envelopeN t0 f0 f1 T = -(T - t0) * f1 / f0 ∧
    envelopeA pw t0 f0 f1 T = f0 * pw (T - t0) (-(-(T - t0) * f1 / f0)) ∧
    (maxQ ts ≤ T →
      envelopeCall pw t0 ts f0 f1 T =
        Except.ok (ts.map fun x =>
          envelopeA pw t0 f0 f1 T * pw (T - x) (envelopeN t0 f0 f1 T))) := by
  refine ⟨?_, rfl, rfl, ?_⟩
  · unfold envelopeCall
    split_ifs with h <;> simp [exceptIsError, h]
  · intro h
    unfold envelopeCall
    rw [if_neg (not_lt.mpr h)]

/-- Witness for `envelope_call_spec`: a concrete evaluation below the
divergence time. -/
theorem envelope_call_spec_witness :
    maxQ [0] ≤ (1 : ℚ) ∧
    envelopeCall (fun _ _ => 1) 0 [0] 1 1 1 =
      Except.ok ([0].map fun _ => envelopeA (fun _ _ => 1) 0 1 1 1 * 1) := by
  have h := (envelope_call_spec (fun _ _ => 1) 0 [0] 1 1 1).2.2.2 (by norm_num [maxQ])
  exact ⟨by norm_num [maxQ], h⟩

/-- C7 counterexample: with `t = [-10, 9/10, 1]` (final time positive) and a
short phase range (so that `idx_end = -1` and the fit uses `t[:-1]`), the
value `T = 17/20` is admitted by the box constraints (`bounds0` lower bound
`0.8*t[-1] = 4/5`, upper bound `-fit_center_time = 9/2`) yet is NOT strictly
greater than the largest fitted time sample `9/10`. -/
theorem global_fit_bounds_T_counterexample :
    (globalFitSetup 3 [-10, 9/10, 1] [0, 1, 2] [1, 1, 1]).boundsLo.getD 2 0 ≤ 17/20 ∧
    (17/20 : ℚ) ≤ (globalFitSetup 3 [-10, 9/10, 1] [0, 1, 2] [1, 1, 1]).boundsHi.getD 2 0 ∧
    ¬ maxQ (globalFitSetup 3 [-10, 9/10, 1] [0, 1, 2] [1, 1, 1]).tFit < 17/20 := by
  refine of_decide_eq_true ?_
  with_unfolding_all rfl

/-- C7 (amended): when the analysed times are sorted and end strictly before
the merger-aligned origin (`t[-1] < 0`, the regime the code is written for),
every `T` admitted by the `bounds0` box constraints is strictly greater than
every time sample being fitted. -/
theorem global_fit_bounds_T_beyond_data (pi : ℚ) (t phase22 omega22 : List ℚ)
    (hs : t.Chain' (· ≤ ·)) (hlen : 2 ≤ t.length) (hneg : pyGetQ t (-1) < 0) :
    ∀ T : ℚ, (globalFitSetup pi t phase22 omega22).boundsLo.getD 2 0 ≤ T →
      maxQ (globalFitSetup pi t phase22 omega22).tFit < T := by
  intro T hT
  have hne0 : t ≠ [] := by intro h; rw [h] at hlen; simp at hlen
  have hlast : pyGetQ t (-1) = t.getLastD 0 := by
    unfold pyGetQ
    rw [if_neg (by norm_num)]
    rw [List.getD_eq_getElem?_getD, List.getLastD_eq_getLast?, List.getLast?_eq_getElem?]
    norm_num
  set g := globalFitSetup pi t phase22 omega22 with hg
  have hlo : g.boundsLo.getD 2 0 = (8/10) * pyGetQ t (-1) := by
    simp [hg, globalFitSetup]
  have htake : ∃ k : ℕ, 1 ≤ k ∧ g.tFit = t.take k := by
    simp only [hg, globalFitSetup, pySliceTo]
    by_cases h0 : argmaxGt phase22 (phase22.headD 0 + 10 * 4 * pi) = 0
    · refine ⟨t.length - 1, by omega, ?_⟩
      rw [if_pos h0]
      norm_num
    · refine ⟨argmaxGt phase22 (phase22.headD 0 + 10 * 4 * pi), by omega, ?_⟩
      rw [if_neg h0]
      rw [if_pos (by positivity)]
      simp
  obtain ⟨k, hk1, hkeq⟩ := htake
  have hfit_le : maxQ g.tFit ≤ pyGetQ t (-1) := by
    have hne : g.tFit ≠ [] := by
      rw [hkeq]
      simp only [ne_eq, List.take_eq_nil_iff]
      push_neg
      exact ⟨by omega, hne0⟩
    refine maxQ_le_of_forall hne ?_
    intro x hx
    rw [hlast]
    exact mem_le_getLastD hs x (List.mem_of_mem_take (hkeq ▸ hx))
  have hstep : pyGetQ t (-1) < (8/10) * pyGetQ t (-1) := by nlinarith
  calc maxQ g.tFit ≤ pyGetQ t (-1) := hfit_le
    _ < (8/10) * pyGetQ t (-1) := hstep
    _ ≤ T := by rw [← hlo]; exact hT

/-- Witness for `global_fit_bounds_T_beyond_data`: a concrete sorted,
negative-time data set. -/
theorem global_fit_bounds_T_beyond_data_witness :
    maxQ (globalFitSetup 3 [-10, -5, -1] [0, 1, 2] [1, 1, 1]).tFit < -4/5 := by
  exact global_fit_bounds_T_beyond_data 3 [-10, -5, -1] [0, 1, 2] [1, 1, 1]
    (by norm_num) (by norm_num) (of_decide_eq_true (by with_unfolding_all rfl)) (-4/5)
    (of_decide_eq_true (by with_unfolding_all rfl))

/-! ## Tracker iteration lemmas -/

lemma iterDetect_tEx (inp : TrackerInputs P) (s : TrackerState P) :
    (iterDetect inp s).tEx = (iterDetect inp s).idx_extrema.map (fun i => inp.t.getD i 0) := rfl

lemma iterDetect_omegaEx (inp : TrackerInputs P) (s : TrackerState P) :
    (iterDetect inp s).omegaEx =
      (iterDetect inp s).idx_extrema.map (fun i => inp.omega22.getD i 0) := rfl

lemma iterDetect_phaseEx (inp : TrackerInputs P) (s : TrackerState P) :
    (iterDetect inp s).phaseEx =
      (iterDetect inp s).idx_extrema.map (fun i => inp.phase22.getD i 0) := rfl

lemma iterDetect_Nx (inp : TrackerInputs P) (s : TrackerState P) :
    (iterDetect inp s).Nx = (iterDetect inp s).idx_extrema.length := rfl

lemma iterDetect_Nleft (inp : TrackerInputs P) (s : TrackerState P) :
    (iterDetect inp s).Nleft =
      (iterDetect inp s).idx_extrema.countP (fun i => decide (i < s.idx_ref)) := rfl

lemma iterDetect_Nright (inp : TrackerInputs P) (s : TrackerState P) :
    (iterDetect inp s).Nright =
      (iterDetect inp s).idx_extrema.countP (fun i => decide (s.idx_ref ≤ i)) := rfl

/-- Once `it ≥ 20` when an iteration starts, the line-565 check fires and the
iteration returns. -/
lemma trackerStep_it_late (inp : TrackerInputs P) (s : TrackerState P) (h : 20 ≤ s.it) :
    (trackerStep inp s).isDone = true := by
  simp only [trackerStep]
  rw [if_pos (Or.inr (by omega))]
  rfl

/-- A continuing iteration increments the iteration counter and preserves the
recorded-window invariant. -/
lemma trackerStep_next_facts {inp : TrackerInputs P} {s sn : TrackerState P}
    (h : trackerStep inp s = StepRes.next sn) :
    sn.it = s.it + 1 ∧ (StateInv s → StateInv sn) := by
  simp only [trackerStep] at h
  split at h
  · exact absurd h (by simp)
  · split at h
    · split at h
      · exact absurd h (by simp)
      · split at h
        · cases h
          exact ⟨rfl, fun _ => Or.inr ⟨rfl, rfl⟩⟩
        · rename_i ao hadj hpair
          split at h
          · exact absurd h (by simp)
          · split at h
            · exact absurd h (by simp)
            · cases h
              refine ⟨rfl, fun _ => ?_⟩
              rw [not_not] at hpair
              have h1 : (ao.idx_lo : ℤ) = s.old_idx_lo := congrArg Prod.fst hpair
              have h2 : (ao.idx_hi : ℤ) = s.old_idx_hi := congrArg Prod.snd hpair
              exact Or.inr ⟨h1.symm, h2.symm⟩
    · split at h
      · exact absurd h (by simp)
      · split at h
        · exact absurd h (by simp)
        · cases h
          refine ⟨rfl, fun hinv => ?_⟩
          rcases hinv with ⟨h1, h2⟩ | ⟨h1, h2⟩
          · exact Or.inl ⟨h1, h2⟩
          · exact Or.inr ⟨h1, h2⟩

/-- The tracker loop always terminates within its fuel: once `it > 20` the
line-565 check returns unconditionally, so 21 iterations bound every run. -/
lemma trackerRun_isSome (inp : TrackerInputs P) :
    ∀ (fuel : ℕ) (s : TrackerState P), 21 ≤ s.it + fuel → 1 ≤ fuel →
      (trackerRun inp s fuel).isSome = true := by
  intro fuel
  induction fuel with
  | zero => intro s h h1; omega
  | succ n ih =>
    intro s h _
    cases hstep : trackerStep inp s with
    | done r => simp [trackerRun, hstep]
    | err m => simp [trackerRun, hstep]
    | next sn =>
      simp only [trackerRun, hstep]
      rcases Nat.eq_zero_or_pos n with hn | hn
      · subst hn
        have hl := trackerStep_it_late inp s (by omega)
        rw [hstep] at hl
        simp [StepRes.isDone] at hl
      · have hit := (trackerStep_next_facts hstep).1
        exact ih sn (by omega) (by omega)

/-- Every returning iteration with refinement disabled returns the
grid-point arrays at the returned extrema indices. -/
lemma trackerStep_done_arrays {inp : TrackerInputs P} {s : TrackerState P} {r : TrackerResult P}
    (hre : inp.refine_extrema = false) (h : trackerStep inp s = StepRes.done r) :
    r.t_extrema = r.idx_extrema.map (fun i => inp.t.getD i 0) ∧
    r.omega22_extrema = r.idx_extrema.map (fun i => inp.omega22.getD i 0) ∧
    r.phase22_extrema = r.idx_extrema.map (fun i => inp.phase22.getD i 0) := by
  have harr : iterArrays inp s (iterDetect inp s) =
      ((iterDetect inp s).tEx, (iterDetect inp s).omegaEx, (iterDetect inp s).phaseEx) := by
    simp [iterArrays, hre]
  simp only [trackerStep] at h
  split at h
  · cases h
    exact ⟨rfl, rfl, rfl⟩
  · split at h
    · split at h
      · exact absurd h (by simp)
      · split at h
        · exact absurd h (by simp)
        · split at h
          · cases h
            rw [harr]
            exact ⟨rfl, rfl, rfl⟩
          · split at h
            · cases h
              rw [harr]
              exact ⟨rfl, rfl, rfl⟩
            · exact absurd h (by simp)
    · split at h
      · cases h
        rw [harr]
        exact ⟨rfl, rfl, rfl⟩
      · split at h
        · cases h
          rw [harr]
          exact ⟨rfl, rfl, rfl⟩
        · exact absurd h (by simp)

/-- Run-level version of `trackerStep_done_arrays`. -/
lemma trackerRun_arrays {inp : TrackerInputs P} (hre : inp.refine_extrema = false) :
    ∀ (fuel : ℕ) (s : TrackerState P) (r : TrackerResult P),
      trackerRun inp s fuel = some (Except.ok r) →
      r.t_extrema = r.idx_extrema.map (fun i => inp.t.getD i 0) ∧
      r.omega22_extrema = r.idx_extrema.map (fun i => inp.omega22.getD i 0) ∧
      r.phase22_extrema = r.idx_extrema.map (fun i => inp.phase22.getD i 0) := by
  intro fuel
  induction fuel with
  | zero => intro s r h; simp [trackerRun] at h
  | succ n ih =>
    intro s r h
    simp only [trackerRun] at h
    cases hstep : trackerStep inp s with
    | next sn =>
      rw [hstep] at h
      exact ih sn r h
    | done r2 =>
      rw [hstep] at h
      simp only [Option.some_inj] at h
      cases h
      exact trackerStep_done_arrays hre hstep
    | err m =>
      rw [hstep] at h
      simp at h

/-- `iterAdjustLeft` never decreases the reference index: the only branch
that changes it sets it to the integer midpoint of the first two detected
extrema at or after `idx_ref`, which both lie at or after `idx_ref`. -/
lemma iterAdjustLeft_ref_mono {inp : TrackerInputs P} {s : TrackerState P} {d : DetectInfo}
    {Kn : ℚ} {lo ref Nr : ℕ}
    (hsorted : d.idx_extrema.Chain' (· < ·))
    (hNr : d.Nright = d.idx_extrema.countP (fun i => decide (s.idx_ref ≤ i)))
    (h : iterAdjustLeft inp s d Kn = Except.ok (lo, ref, Nr)) :
    s.idx_ref ≤ ref := by
  simp only [iterAdjustLeft] at h
  split_ifs at h with h1 h2 h3 h4 h5
  all_goals try (cases h; exact le_refl _)
  obtain ⟨hargm, hL2, hgL, hgL1⟩ := sorted_ref_facts hsorted (hNr ▸ h5)
  rw [hargm] at h
  cases h
  omega

/-- The reference index never decreases across one iteration of the tracker
loop (for a peak detector returning sorted indices). -/
lemma trackerStep_ref_mono {inp : TrackerInputs P} (hps : PeaksSorted inp) (s : TrackerState P) :
    (∀ sn, trackerStep inp s = StepRes.next sn → s.idx_ref ≤ sn.idx_ref) ∧
    (∀ r, trackerStep inp s = StepRes.done r → s.idx_ref ≤ r.idx_ref) := by
  have hsorted : (iterDetect inp s).idx_extrema.Chain' (· < ·) := by
    have hl := hps ((iterResidual inp s).map (fun x => inp.sign * x))
      (iterWidthProm inp s).1 (iterWidthProm inp s).2
    have heq : (iterDetect inp s).idx_extrema =
        (inp.findPeaks ((iterResidual inp s).map (fun x => inp.sign * x))
          (iterWidthProm inp s).1 (iterWidthProm inp s).2).map (· + s.idx_lo) := rfl
    rw [heq, List.chain'_map]
    exact hl.imp (fun a b hab => by omega)
  have hadjref : ∀ ao, iterAdjust inp s (iterDetect inp s) (iterK inp s (iterDetect inp s)) =
      Except.ok ao → s.idx_ref ≤ ao.idx_ref := by
    intro ao hao
    unfold iterAdjust at hao
    cases hleft : iterAdjustLeft inp s (iterDetect inp s) (iterK inp s (iterDetect inp s)) with
    | error m => rw [hleft] at hao; simp at hao
    | ok triple =>
      rw [hleft] at hao
      obtain ⟨lo, ref, Nr⟩ := triple
      simp only [Except.ok.injEq] at hao
      cases hao
      exact iterAdjustLeft_ref_mono hsorted (iterDetect_Nright inp s) hleft
  constructor <;> intro x h <;> simp only [trackerStep] at h
  · split at h
    · exact absurd h (by simp)
    · split at h
      · split at h
        · exact absurd h (by simp)
        · rename_i ao hadj
          split at h
          · cases h; exact hadjref ao hadj
          · split at h
            · exact absurd h (by simp)
            · split at h
              · exact absurd h (by simp)
              · cases h; exact hadjref ao hadj
      · split at h
        · exact absurd h (by simp)
        · split at h
          · exact absurd h (by simp)
          · cases h; exact le_refl _
  · split at h
    · cases h; exact le_refl _
    · split at h
      · split at h
        · exact absurd h (by simp)
        · rename_i ao hadj
          split at h
          · exact absurd h (by simp)
          · split at h
            · cases h; exact hadjref ao hadj
            · split at h
              · cases h; exact hadjref ao hadj
              · exact absurd h (by simp)
      · split at h
        · cases h; exact le_refl _
        · split at h
          · cases h; exact le_refl _
          · exact absurd h (by simp)

/-- Run-level monotonicity of the reference index. -/
lemma trackerRun_ref_mono {inp : TrackerInputs P} (hps : PeaksSorted inp) :
    ∀ (fuel : ℕ) (s : TrackerState P) (r : TrackerResult P),
      trackerRun inp s fuel = some (Except.ok r) → s.idx_ref ≤ r.idx_ref := by
  intro fuel
  induction fuel with
  | zero => intro s r h; simp [trackerRun] at h
  | succ n ih =>
    intro s r h
    simp only [trackerRun] at h
    cases hstep : trackerStep inp s with
    | next sn =>
      rw [hstep] at h
      exact le_trans ((trackerStep_ref_mono hps s).1 sn hstep) (ih sn r h)
    | done r2 =>
      rw [hstep] at h
      simp only [Option.some_inj] at h
      cases h
      exact (trackerStep_ref_mono hps s).2 _ hstep
    | err m =>
      rw [hstep] at h
      simp at h

lemma driveAppendOne_count (st : DriveState P) (r : TrackerResult P) (k : ℕ) :
    (driveAppendOne st r k).count = st.count := rfl

lemma foldl_driveAppendOne_count (r : TrackerResult P) :
    ∀ (l : List ℕ) (st : DriveState P),
      (l.foldl (fun acc k => driveAppendOne acc r k) st).count = st.count := by
  intro l
  induction l with
  | nil => intro st; rfl
  | cons a t ih =>
    intro st
    simp only [List.foldl_cons]
    rw [ih]
    rfl

/-- The per-call appends never change the call counter. -/
lemma driveAppend_count (N : ℕ) (st : DriveState P) (r : TrackerResult P) (c : ℕ) :
    (driveAppend N st r c).count = st.count := by
  unfold driveAppend
  split
  · rw [driveAppendOne_count]
    split
    · rw [foldl_driveAppendOne_count]
    · rfl
  · rfl

/-! ## Claim theorems: C1, C4, C8, C9 -/

/-- C1: when the Tracker returns fewer than `2N+1` extrema (including an
empty list), the driving loop's current pass appends the extrema confirmed
by this call (per the `≥ 2N-1` rule) and returns them normally — it does
not raise and does not iterate further. -/
theorem driving_loop_short_result_returns
    (tracker : ℕ → ℚ → P → Option (Except String (TrackerResult P)))
    (N : ℕ) (st : DriveState P) (fuel : ℕ) (r : TrackerResult P)
    (htr : tracker st.idx_ref st.K st.p = some (Except.ok r))
    (hshort : r.idx_extrema.length < 2 * N + 1) :
    findExtremaLoop tracker N st (fuel + 1) =
      some (Except.ok (driveAppend N
        { st with K := r.K, p := r.p, idx_ref := r.idx_ref, count := st.count + 1 }
        r (st.count + 1))) := by
  simp only [findExtremaLoop, htr]
  rw [if_pos hshort]

/-- Witness for `driving_loop_short_result_returns`: a run of the real
embedded tracker in which the peak detector finds no extrema (the
degenerate zero-oscillation input), so the first driving-loop call returns
an empty extrema list without raising. -/
theorem driving_loop_short_result_returns_witness :
    FindExtremaNearIdxRef c1inp 5 1 () = some (Except.ok c1res) ∧
    c1res.idx_extrema.length < 2 * 3 + 1 ∧
    findExtremaLoop (fun i k p => FindExtremaNearIdxRef c1inp i k p) 3 c1st 1 =
      some (Except.ok (driveAppend 3
        { c1st with K := c1res.K, p := c1res.p, idx_ref := c1res.idx_ref, count := c1st.count + 1 }
        c1res (c1st.count + 1))) := by
  have h1 : (fun i k p => FindExtremaNearIdxRef c1inp i k p) c1st.idx_ref c1st.K c1st.p =
      some (Except.ok c1res) := of_decide_eq_true (by with_unfolding_all rfl)
  refine ⟨h1, by decide, ?_⟩
  exact driving_loop_short_result_returns _ 3 c1st 0 c1res h1 (by decide)

/-- C4 counterexample: a tracker invocation with `refine_extrema = False`
whose returned "refined" arrays are NOT empty — they hold the grid-point
`(t, omega22, phase22)` data at the two detected extrema.  The claim states
they are empty whenever refinement is disabled. -/
theorem refine_disabled_arrays_not_empty :
    FindExtremaNearIdxRef c4inp 10 1 () = some (Except.ok c4res) ∧
    c4inp.refine_extrema = false ∧
    c4res.t_extrema ≠ [] ∧ c4res.omega22_extrema ≠ [] ∧ c4res.phase22_extrema ≠ [] := by
  refine ⟨of_decide_eq_true (by with_unfolding_all rfl), rfl, ?_, ?_, ?_⟩ <;> simp [c4res]

/-- C4 (amended): when sub-sample refinement is disabled, the
refined-extrema arrays returned by the Tracker contain the grid-point data
`t[idx_extrema]`, `omega22[idx_extrema]`, `phase22[idx_extrema]` (hence have
the same length as `idx_extrema`), rather than being empty. -/
theorem refine_disabled_returns_grid_arrays (inp : TrackerInputs P) (idx_ref : ℕ) (K : ℚ)
    (p : P) (r : TrackerResult P) (hre : inp.refine_extrema = false)
    (hrun : FindExtremaNearIdxRef inp idx_ref K p = some (Except.ok r)) :
    r.t_extrema = r.idx_extrema.map (fun i => inp.t.getD i 0) ∧
    r.omega22_extrema = r.idx_extrema.map (fun i => inp.omega22.getD i 0) ∧
    r.phase22_extrema = r.idx_extrema.map (fun i => inp.phase22.getD i 0) :=
  trackerRun_arrays hre 22 _ r hrun

/-- Witness for `refine_disabled_returns_grid_arrays` at the concrete
`c4inp` run. -/
theorem refine_disabled_returns_grid_arrays_witness :
    c4res.t_extrema = c4res.idx_extrema.map (fun i => c4inp.t.getD i 0) ∧
    c4res.omega22_extrema = c4res.idx_extrema.map (fun i => c4inp.omega22.getD i 0) ∧
    c4res.phase22_extrema = c4res.idx_extrema.map (fun i => c4inp.phase22.getD i 0) :=
  refine_disabled_returns_grid_arrays c4inp 10 1 () c4res rfl
    (of_decide_eq_true (by with_unfolding_all rfl))

/-- C9: the reference index returned by `FindExtremaNearIdxRef` is never
smaller than the one passed in: it is only ever advanced (to the integer
midpoint of the first two detected extrema at or after it, when advancing
is permitted and at least two extrema lie at or after it), never
decreased. -/
theorem tracker_idx_ref_never_decreases (inp : TrackerInputs P) (idx_ref : ℕ) (K : ℚ) (p : P)
    (r : TrackerResult P) (hps : PeaksSorted inp)
    (hrun : FindExtremaNearIdxRef inp idx_ref K p = some (Except.ok r)) :
    idx_ref ≤ r.idx_ref :=
  trackerRun_ref_mono hps 22 _ r hrun

/-- Witness for `tracker_idx_ref_never_decreases` at the concrete `c1inp`
run. -/
theorem tracker_idx_ref_never_decreases_witness : 5 ≤ c1res.idx_ref :=
  tracker_idx_ref_never_decreases c1inp 5 1 () c1res
    (fun _ _ _ => List.chain'_nil)
    (of_decide_eq_true (by with_unfolding_all rfl))

/-- C8: the driving loop raises the fatal safety exception as soon as its
per-run call count exceeds 1000 — whenever the tracker keeps returning at
least `2N+1` extrema (so the normal end-of-data stop never triggers), the
loop terminates in the line-356 exception; and the per-call 20-iteration cap
makes every single Tracker invocation terminate (its fuel of 22 iterations
is never exhausted). -/
theorem driving_loop_safety_cap
    (tracker : ℕ → ℚ → P → Option (Except String (TrackerResult P)))
    (N : ℕ) (st : DriveState P) (fuel : ℕ)
    (hlong : ∀ i K p, ∃ r, tracker i K p = some (Except.ok r) ∧
      2 * N + 1 ≤ r.idx_extrema.length)
    (hcount : st.count ≤ 1000) (hfuel : 1001 - st.count < fuel) :
    findExtremaLoop tracker N st fuel = some (Except.error driveSafetyMsg) ∧
    ∀ (inp2 : TrackerInputs P) (idx_ref : ℕ) (K : ℚ) (p : P),
      (FindExtremaNearIdxRef inp2 idx_ref K p).isSome = true := by
  constructor
  · induction fuel generalizing st with
    | zero => omega
    | succ n ih =>
      obtain ⟨r, hr, hlen⟩ := hlong st.idx_ref st.K st.p
      simp only [findExtremaLoop, hr]
      rw [if_neg (by omega)]
      by_cases hc : 1000 < st.count + 1
      · rw [if_pos hc]
      · rw [if_neg hc]
        refine ih _ ?_ ?_
        · simp only [driveAppend_count]
          omega
        · simp only [driveAppend_count]
          omega
  · intro inp2 idx_ref K p
    have hinit : (initTrackerState inp2 idx_ref K p).it = 0 := rfl
    exact trackerRun_isSome inp2 22 _ (by omega) (by omega)

/-- Witness for `driving_loop_safety_cap`: a constant tracker that always
returns 7 extrema drives the loop into the safety exception. -/
theorem driving_loop_safety_cap_witness :
    findExtremaLoop (fun _ _ _ => some (Except.ok c8res)) 3 c1st 1002 =
      some (Except.error driveSafetyMsg) ∧
    (FindExtremaNearIdxRef c1inp 3 1 ()).isSome = true := by
  have h := driving_loop_safety_cap (fun _ _ _ => some (Except.ok c8res)) 3 c1st 1002
    (fun _ _ _ => ⟨c8res, rfl, by decide⟩) (by decide) (by decide)
  exact ⟨h.1, h.2 c1inp 3 1 ()⟩

/-! ## The window-count property (C2) -/

/-- Structure of the detected extrema indices under `PeaksSpec`: strictly
increasing with gaps of at least 2, and strictly inside the current window. -/
lemma iterDetect_extrema_spec {inp : TrackerInputs P} (hpk : PeaksSpec inp) (s : TrackerState P) :
    (iterDetect inp s).idx_extrema.Chain' (fun a b => a + 2 ≤ b) ∧
    ∀ g ∈ (iterDetect inp s).idx_extrema, s.idx_lo + 1 ≤ g ∧ g + 2 ≤ s.idx_hi := by
  obtain ⟨hchain, hmem⟩ := hpk ((iterResidual inp s).map (fun x => inp.sign * x))
    (iterWidthProm inp s).1 (iterWidthProm inp s).2
  have heq : (iterDetect inp s).idx_extrema =
      (inp.findPeaks ((iterResidual inp s).map (fun x => inp.sign * x))
        (iterWidthProm inp s).1 (iterWidthProm inp s).2).map (· + s.idx_lo) := rfl
  constructor
  · rw [heq, List.chain'_map]
    exact hchain.imp (fun a b hab => by omega)
  · intro g hg
    rw [heq] at hg
    obtain ⟨i, hi, rfl⟩ := List.mem_map.mp hg
    obtain ⟨hi1, hi2⟩ := hmem i hi
    have hlen : ((iterResidual inp s).map (fun x => inp.sign * x)).length ≤
        s.idx_hi - s.idx_lo := by
      simp only [List.length_map, iterResidual, List.length_zipWith, listSlice,
        List.length_take, List.length_drop]
      omega
    constructor <;> omega

/-- Shrinking the window from the right (too many extrema on the right)
strictly decreases `idx_hi`: the new boundary is the midpoint of two
interior extrema. -/
lemma iterAdjustHi_shrink_lt {inp : TrackerInputs P} {s : TrackerState P} {d : DetectInfo}
    (Kn : ℚ) {Nr : ℕ} (hNrA : inp.Nafter < Nr) (hNa : 1 ≤ inp.Nafter)
    (hNrlen : Nr ≤ d.idx_extrema.length)
    (hmem : ∀ g ∈ d.idx_extrema, s.idx_lo + 1 ≤ g ∧ g + 2 ≤ s.idx_hi) :
    iterAdjustHi inp s d Kn Nr + 2 ≤ s.idx_hi := by
  unfold iterAdjustHi
  rw [if_pos hNrA]
  unfold pyGetNat
  rw [if_neg (by omega), if_neg (by omega)]
  have ht1 : (-((inp.Nafter : ℤ) - (Nr : ℤ))).toNat = Nr - inp.Nafter := by omega
  have ht2 : (-((inp.Nafter : ℤ) - (Nr : ℤ) - 1)).toNat = Nr - inp.Nafter + 1 := by omega
  rw [ht1, ht2]
  have hp1 : d.idx_extrema.length - (Nr - inp.Nafter) < d.idx_extrema.length := by omega
  have hp2 : d.idx_extrema.length - (Nr - inp.Nafter + 1) < d.idx_extrema.length := by omega
  rw [List.getD_eq_getElem _ 0 hp1, List.getD_eq_getElem _ 0 hp2]
  have hm1 := hmem _ (List.getElem_mem hp1)
  have hm2 := hmem _ (List.getElem_mem hp2)
  omega

set_option maxHeartbeats 800000 in
/-- The core of the window-count property: a returning iteration that was
not the `it > 20` cap and returned exactly `Nbefore + Nafter` extrema has
exactly `Nbefore` of them strictly before the returned reference index and
`Nafter` at or after it. -/
lemma trackerStep_full_counts {inp : TrackerInputs P} {s : TrackerState P} {r : TrackerResult P}
    (hpk : PeaksSpec inp) (hNb : 1 ≤ inp.Nbefore) (hNa : 1 ≤ inp.Nafter)
    (hinv : StateInv s) (hit : s.it < 20)
    (hstep : trackerStep inp s = StepRes.done r)
    (hfull : r.idx_extrema.length = inp.Nbefore + inp.Nafter) :
    r.idx_extrema.countP (fun i => decide (i < r.idx_ref)) = inp.Nbefore ∧
    r.idx_extrema.countP (fun i => decide (r.idx_ref ≤ i)) = inp.Nafter := by
  obtain ⟨hchain, hmem⟩ := iterDetect_extrema_spec hpk s
  have hNl := iterDetect_Nleft inp s
  have hNr2 := iterDetect_Nright inp s
  have hNx := iterDetect_Nx inp s
  simp only [trackerStep] at hstep
  generalize hgen : iterDetect inp s = d at hstep hchain hmem hNl hNr2 hNx
  have hsorted : d.idx_extrema.Chain' (· < ·) :=
    hchain.imp (fun a b hab => by omega)
  have hsum := countP_lt_add_countP_ge d.idx_extrema s.idx_ref
  split at hstep
  · -- line-565 early return
    rename_i hearly
    cases hstep
    rcases hearly with h0 | hcap
    · simp only at hfull
      omega
    · omega
  · rename_i hnotearly
    split at hstep
    · -- count mismatch: only the window-unchanged fall-through can return
      rename_i hmm
      split at hstep
      · cases hstep
      · rename_i ao hadj
        split at hstep
        · cases hstep
        · rename_i hpair
          rw [not_not] at hpair
          -- extract the returned fields
          have hres : r.idx_extrema = d.idx_extrema ∧ r.idx_ref = ao.idx_ref := by
            split at hstep
            · cases hstep; exact ⟨rfl, rfl⟩
            · split at hstep
              · cases hstep; exact ⟨rfl, rfl⟩
              · cases hstep
          obtain ⟨hrex, hrref⟩ := hres
          -- unpack the adjustment
          unfold iterAdjust at hadj
          cases hleft : iterAdjustLeft inp s d (iterK inp s d) with
          | error m => rw [hleft] at hadj; cases hadj
          | ok triple =>
            obtain ⟨lo, ref, Nr⟩ := triple
            rw [hleft] at hadj
            simp only [Except.ok.injEq] at hadj
            cases hadj
            -- the window is unchanged: ao components equal the current window
            have hlo_eq : lo = s.idx_lo ∧
                iterAdjustHi inp s d (iterK inp s d) Nr = s.idx_hi := by
              have hfst : (lo : ℤ) = s.old_idx_lo := congrArg Prod.fst hpair
              have hsnd : (iterAdjustHi inp s d (iterK inp s d) Nr : ℤ) = s.old_idx_hi :=
                congrArg Prod.snd hpair
              rcases hinv with ⟨h1, h2⟩ | ⟨h1, h2⟩
              · rw [h1] at hfst; omega
              · rw [h1] at hfst; rw [h2] at hsnd
                omega
            obtain ⟨hlo_eq, hhi_eq⟩ := hlo_eq
            -- length bookkeeping
            rw [hrex] at hfull
            have hNlle : d.Nleft ≤ d.idx_extrema.length := by
              rw [hNl]
              exact List.countP_le_length _
            have hNrle : d.Nright ≤ d.idx_extrema.length := by
              rw [hNr2]
              exact List.countP_le_length _
            have hsum2 : d.Nleft + d.Nright = d.idx_extrema.length := by
              rw [hNl, hNr2]
              exact hsum
            -- case analysis on the left-adjustment branch
            simp only [iterAdjustLeft] at hleft
            split_ifs at hleft with hb1 hb2 hb3 hb4 hb5
            · -- too many on the left: idx_lo strictly increases, contradiction
              exfalso
              cases hleft
              have hj2 : d.Nleft - inp.Nbefore < d.idx_extrema.length := by omega
              have hj1 : d.Nleft - inp.Nbefore - 1 < d.idx_extrema.length := by omega
              have hm1 := hmem _ (List.getElem_mem hj1)
              have hm2 := hmem _ (List.getElem_mem hj2)
              have hge : s.idx_lo + 1 ≤
                  (d.idx_extrema.getD (d.Nleft - inp.Nbefore - 1) 0
                    + d.idx_extrema.getD (d.Nleft - inp.Nbefore) 0) / 2 := by
                rw [List.getD_eq_getElem _ 0 hj1, List.getD_eq_getElem _ 0 hj2]
                omega
              omega
            · -- advance branch
              have hNright2 : 2 ≤ d.idx_extrema.countP
                  (fun i => decide (s.idx_ref ≤ i)) := by omega
              obtain ⟨hargm, hL2, hgL, hgL1⟩ := sorted_ref_facts hsorted hNright2
              cases hleft
              -- right side: Nr = Nright - 1
              rcases Nat.lt_or_ge inp.Nafter (d.Nright - 1) with hgt | hle
              · -- would shrink the right boundary: contradiction
                exfalso
                have := iterAdjustHi_shrink_lt (iterK inp s d) hgt hNa (by omega) hmem
                omega
              · -- Nr = Nafter exactly: the advanced reference splits Nb/Na
                have hNleq : d.idx_extrema.countP
                    (fun i => decide (i < s.idx_ref)) = inp.Nbefore - 1 := by omega
                have hLlen : d.idx_extrema.countP (fun i => decide (i < s.idx_ref))
                    < d.idx_extrema.length := by omega
                have hgap : d.idx_extrema.getD
                    (d.idx_extrema.countP (fun i => decide (i < s.idx_ref))) 0
                    + 2 ≤ d.idx_extrema.getD
                    (d.idx_extrema.countP (fun i => decide (i < s.idx_ref)) + 1) 0 := by
                  have hg := List.chain'_iff_get.mp hchain
                    (d.idx_extrema.countP (fun i => decide (i < s.idx_ref)))
                    (by omega)
                  rw [List.getD_eq_getElem _ 0 hLlen, List.getD_eq_getElem _ 0 hL2]
                  simpa using hg
                obtain ⟨hcl, hcr⟩ := counts_around_mid
                  (List.chain'_iff_pairwise.mp hsorted) hL2 hgap rfl
                have hrref2 : r.idx_ref =
                    (d.idx_extrema.getD (argmaxGeNat d.idx_extrema s.idx_ref) 0
                      + d.idx_extrema.getD (argmaxGeNat d.idx_extrema s.idx_ref + 1) 0) / 2 := by
                  rw [hrref]
                rw [hrex, hrref2, hargm]
                refine ⟨?_, ?_⟩
                · rw [hcl]
                  omega
                · rw [hcr]
                  omega
            · -- idx_lo = 0, advancing allowed, but fewer than 2 on the right:
              -- impossible for a full-length result
              exfalso
              omega
            · -- idx_lo ≠ 0 grow-left: the right side must shrink, contradiction
              exfalso
              cases hleft
              have hgt : inp.Nafter < d.Nright := by omega
              have := iterAdjustHi_shrink_lt (iterK inp s d) hgt hNa (by omega) hmem
              omega
            · -- Nleft = Nbefore: mismatch forces Nright ≠ Nafter, impossible at full length
              exfalso
              rcases hmm with hmm | hmm
              · exact hmm (by omega)
              · exact hmm (by omega)
    · -- counts match: the result is counted against the unchanged idx_ref
      rename_i hok
      have h1 : d.Nleft = inp.Nbefore := by
        by_contra hne
        exact hok (Or.inl hne)
      have h2 : d.Nright = inp.Nafter := by
        by_contra hne
        exact hok (Or.inr hne)
      have hres : r.idx_extrema = d.idx_extrema ∧ r.idx_ref = s.idx_ref := by
        split at hstep
        · cases hstep; exact ⟨rfl, rfl⟩
        · split at hstep
          · cases hstep; exact ⟨rfl, rfl⟩
          · cases hstep
      obtain ⟨hrex, hrref⟩ := hres
      rw [hrex, hrref]
      constructor <;> omega

/-- Run-level version of `trackerStep_full_counts`: any full-length result
produced within the first 20 iterations satisfies the window-count
property. -/
lemma trackerRun_full_counts {inp : TrackerInputs P} (hpk : PeaksSpec inp)
    (hNb : 1 ≤ inp.Nbefore) (hNa : 1 ≤ inp.Nafter) :
    ∀ (fuel : ℕ) (s : TrackerState P) (r : TrackerResult P), StateInv s → s.it + fuel ≤ 20 →
      trackerRun inp s fuel = some (Except.ok r) →
      r.idx_extrema.length = inp.Nbefore + inp.Nafter →
      r.idx_extrema.countP (fun i => decide (i < r.idx_ref)) = inp.Nbefore ∧
      r.idx_extrema.countP (fun i => decide (r.idx_ref ≤ i)) = inp.Nafter := by
  intro fuel
  induction fuel with
  | zero => intro s r _ _ h _; simp [trackerRun] at h
  | succ n ih =>
    intro s r hinv hfit h hfull
    simp only [trackerRun] at h
    cases hstep : trackerStep inp s with
    | next sn =>
      rw [hstep] at h
      obtain ⟨hit, hpres⟩ := trackerStep_next_facts hstep
      exact ih sn r (hpres hinv) (by omega) h hfull
    | done r2 =>
      rw [hstep] at h
      simp only [Option.some_inj] at h
      cases h
      exact trackerStep_full_counts hpk hNb hNa hinv (by omega) hstep hfull
    | err m =>
      rw [hstep] at h
      simp at h

/-- Running with more fuel cannot change an already-determined outcome. -/
lemma trackerRun_mono {inp : TrackerInputs P} :
    ∀ (fuel fuel2 : ℕ) (s : TrackerState P) (x : Except String (TrackerResult P)),
      fuel ≤ fuel2 → trackerRun inp s fuel = some x → trackerRun inp s fuel2 = some x := by
  intro fuel
  induction fuel with
  | zero => intro fuel2 s x _ h; simp [trackerRun] at h
  | succ n ih =>
    intro fuel2 s x hle h
    cases fuel2 with
    | zero => omega
    | succ n2 =>
      simp only [trackerRun] at h ⊢
      cases hstep : trackerStep inp s with
      | next sn =>
        rw [hstep] at h
        exact ih n2 sn x (by omega) h
      | done r2 =>
        rw [hstep] at h
        exact h
      | err m =>
        rw [hstep] at h
        exact h

/-! ## Claim theorems: C2 -/

/-- C2 counterexample: a concrete tracker invocation that returns, through
the `it > 20` iteration cap (line 565), a result with exactly
`Nbefore + Nafter` extrema of which 0 (rather than `Nbefore = 1`) lie
strictly before the returned reference index.  The window adjustment
oscillates between two windows forever (the limit-cycle scenario described
at lines 496-502), so the cap fires mid-adjustment. -/
theorem window_counts_counterexample :
    FindExtremaNearIdxRef c2inp 10 (1/2) () = some (Except.ok c2res) ∧
    c2res.idx_extrema.length = c2inp.Nbefore + c2inp.Nafter ∧
    c2res.idx_extrema.countP (fun i => decide (i < c2res.idx_ref)) ≠ c2inp.Nbefore := by
  refine ⟨of_decide_eq_true (by with_unfolding_all rfl),
    of_decide_eq_true (by with_unfolding_all rfl),
    of_decide_eq_true (by with_unfolding_all rfl)⟩

/-- C2 (amended): for every Tracker invocation that returns a result of
exactly `Nbefore + Nafter` extrema through any path other than the
20-iteration safety cap (formally: the run returns within 20 iterations),
exactly `Nbefore` of the returned extrema indices are strictly less than
the returned (possibly advanced) reference index and exactly `Nafter` are
greater than or equal to it.  (Results returned by the iteration cap can
violate this, as the counterexample shows.)  Requires the find_peaks
guarantees (sorted interior peaks separated by at least 2 samples) and at
least one requested extremum on each side of the reference index. -/
theorem window_counts_on_noncap_returns (inp : TrackerInputs P) (idx_ref : ℕ) (K : ℚ) (p : P)
    (r : TrackerResult P) (hpk : PeaksSpec inp) (hNb : 1 ≤ inp.Nbefore) (hNa : 1 ≤ inp.Nafter)
    (hrun : trackerRun inp (initTrackerState inp idx_ref K p) 20 = some (Except.ok r))
    (hfull : r.idx_extrema.length = inp.Nbefore + inp.Nafter) :
    r.idx_extrema.countP (fun i => decide (i < r.idx_ref)) = inp.Nbefore ∧
    r.idx_extrema.countP (fun i => decide (r.idx_ref ≤ i)) = inp.Nafter ∧
    FindExtremaNearIdxRef inp idx_ref K p = some (Except.ok r) := by
  have hinit : (initTrackerState inp idx_ref K p).it = 0 := rfl
  obtain ⟨h1, h2⟩ := trackerRun_full_counts hpk hNb hNa 20 _ r (Or.inl ⟨rfl, rfl⟩)
    (by omega) hrun hfull
  exact ⟨h1, h2, trackerRun_mono 20 22 _ _ (by omega) hrun⟩

/-- Witness for `window_counts_on_noncap_returns`: a concrete run with an
interior-peaks detector that converges in one iteration with one extremum
on each side of `idx_ref = 10`. -/
theorem window_counts_on_noncap_returns_witness :
    c2wres.idx_extrema.countP (fun i => decide (i < c2wres.idx_ref)) = c2winp.Nbefore ∧
    c2wres.idx_extrema.countP (fun i => decide (c2wres.idx_ref ≤ i)) = c2winp.Nafter ∧
    FindExtremaNearIdxRef c2winp 10 1 () = some (Except.ok c2wres) := by
  refine window_counts_on_noncap_returns c2winp 10 1 () c2wres ?_ (by decide) (by decide)
    (of_decide_eq_true (by with_unfolding_all rfl))
    (of_decide_eq_true (by with_unfolding_all rfl))
  intro xs w pr
  show (if 16 ≤ xs.length then [8, 12] else []).Chain' (fun a b => a + 2 ≤ b) ∧
    ∀ i ∈ (if 16 ≤ xs.length then [8, 12] else []), 1 ≤ i ∧ i + 2 ≤ xs.length
  split_ifs with hl
  · refine ⟨by simp, ?_⟩
    intro i hi
    simp only [List.mem_cons, List.not_mem_nil, or_false] at hi
    rcases hi with rfl | rfl
    · omega
    · omega
  · simp


/-! ## Claim theorems: C5 -/

set_option maxRecDepth 4000 in
/-- C5 counterexample: a run in which the stagnation exit (line 749) fires
although none of the claim's conditions held.  The per-iteration
short-on-the-right flags alternate `[T,F,T,F,T,F,T,F,T,F]` (longest
consecutive run 1, total 5), yet `Count_Nright_short` — incremented at
lines 645-646 whenever `Nright < Nafter` and never reset — reaches 5 and
triggers the return at iteration 10, with 7 extrema present (not fewer
than 5), the iteration count within the cap, and the convergence check not
satisfied. -/
theorem stagnation_exit_counterexample :
    FindExtremaNearIdxRef c5inp 20 (1/4) 0 = some (Except.ok c5res) ∧
    c5res.idx_extrema.length = 7 ∧
    c5states.map (fun s => decide ((iterDetect c5inp s).Nright < c5inp.Nafter))
      = [true, false, true, false, true, false, true, false, true, false] ∧
    maxRunTrue (c5states.map (fun s => decide ((iterDetect c5inp s).Nright < c5inp.Nafter)))
      = 1 ∧
    (c5states.map (fun s => decide ((iterDetect c5inp s).Nright < c5inp.Nafter))).count true
      = 5 ∧
    (∀ s ∈ c5states, s.it + 1 ≤ 20) ∧
    c5states.map (fun s => decide (iterMaxDelta c5inp s (iterDetect c5inp s) < c5inp.TOL))
      = List.replicate 10 false := by
  refine ⟨of_decide_eq_true (by with_unfolding_all rfl),
    of_decide_eq_true (by with_unfolding_all rfl),
    of_decide_eq_true (by with_unfolding_all rfl),
    of_decide_eq_true (by with_unfolding_all rfl),
    of_decide_eq_true (by with_unfolding_all rfl),
    of_decide_eq_true (by with_unfolding_all rfl),
    of_decide_eq_true (by with_unfolding_all rfl)⟩

/-- C5 (amended): at any iteration that passes the line-565 early check,
falls through the window-adjustment block (counts match, or the adjusted
window equals the recorded one), and does not satisfy the convergence
check, the tracker returns if and only if the cumulative short counter
(incremented whenever `Nright < Nafter`, never reset — the short
iterations need not be consecutive) has reached 5, or fewer than 5 extrema
are present, or more than 20 iterations have run. -/
theorem stagnation_exit_condition (inp : TrackerInputs P) (s : TrackerState P)
    (hne : ¬ iterEarly inp s) (hft : iterFallThrough inp s = true)
    (hnc : ¬ iterMaxDelta inp s (iterDetect inp s) < inp.TOL) :
    (trackerStep inp s).isDone = true ↔
      (5 ≤ iterCountShort inp s (iterDetect inp s) ∨
        (iterDetect inp s).Nx < 5 ∨ 20 < s.it + 1) := by
  simp only [trackerStep]
  split
  · rename_i hearly
    exact absurd hearly hne
  · split
    · rename_i hmm
      split
      · rename_i m hadj
        exfalso
        simp only [iterFallThrough] at hft
        rw [if_pos hmm, hadj] at hft
        simp at hft
      · rename_i ao hadj
        split
        · rename_i hchg
          exfalso
          simp only [iterFallThrough] at hft
          rw [if_pos hmm, hadj] at hft
          exact hchg (of_decide_eq_true hft)
        · split
          · rename_i hc
            exact iff_of_true rfl hc
          · exact iff_of_false (by simp [StepRes.isDone]) (by assumption)
    · split
      · rename_i hc
        exact iff_of_true rfl hc
      · exact iff_of_false (by simp [StepRes.isDone]) (by assumption)

set_option maxRecDepth 2000 in
/-- Witness for `stagnation_exit_condition` at the returning iteration of
the C5 run. -/
theorem stagnation_exit_condition_witness :
    (trackerStep c5inp c5slast).isDone = true ↔
      (5 ≤ iterCountShort c5inp c5slast (iterDetect c5inp c5slast) ∨
        (iterDetect c5inp c5slast).Nx < 5 ∨ 20 < c5slast.it + 1) :=
  stagnation_exit_condition c5inp c5slast
    (of_decide_eq_true (by with_unfolding_all rfl))
    (of_decide_eq_true (by with_unfolding_all rfl))
    (of_decide_eq_true (by with_unfolding_all rfl))

/-! ## Claim theorems: C6 -/

set_option maxRecDepth 2200 in
/-- C6 counterexample: two iterations of one Tracker invocation (the run's
second and third states) that see the same window `[5, 17)` but use
different `width`/`prominence` pairs: the second iteration reuses the pair
cached across the first iteration's window change (computed on the old,
smaller window), while the third recomputes it (the re-fit at the end of
the second iteration resets `prominence = None`, lines 784-787) from the
current window's residual, yielding a different prominence. -/
theorem prominence_recompute_counterexample :
    initTrackerState c6rinp 8 (1/6) 0 = c6rs0 ∧
    trackerStep c6rinp c6rs0 = StepRes.next c6rs1 ∧
    trackerStep c6rinp c6rs1 = StepRes.next c6rs2 ∧
    c6rs1.idx_lo = c6rs2.idx_lo ∧ c6rs1.idx_hi = c6rs2.idx_hi ∧
    iterWidthProm c6rinp c6rs1 = (0, 27/400) ∧
    iterWidthProm c6rinp c6rs2 = (0, 33/400) := by
  refine ⟨of_decide_eq_true (by with_unfolding_all rfl),
    of_decide_eq_true (by with_unfolding_all rfl),
    of_decide_eq_true (by with_unfolding_all rfl),
    of_decide_eq_true (by with_unfolding_all rfl),
    of_decide_eq_true (by with_unfolding_all rfl),
    of_decide_eq_true (by with_unfolding_all rfl),
    of_decide_eq_true (by with_unfolding_all rfl)⟩

/-- C6 (amended): the `width`/`prominence` pair is carried over to the next
iteration exactly when the iteration takes the line-725 window-change
`continue`; every other continuing path (in particular the re-fit at lines
784-787) clears the cache, so the pair is recomputed from the residual at
the start of the next iteration even when the window is unchanged. -/
theorem prominence_cache_policy (inp : TrackerInputs P) (s sn : TrackerState P)
    (h : trackerStep inp s = StepRes.next sn) :
    sn.promCache =
      if iterWindowChanged inp s = true then some (iterWidthProm inp s) else none := by
  simp only [trackerStep] at h
  split at h
  · cases h
  · split at h
    · rename_i hmm
      split at h
      · cases h
      · rename_i ao hadj
        split at h
        · rename_i hchg
          cases h
          have hwc : iterWindowChanged inp s = true := by
            simp only [iterWindowChanged]
            rw [if_pos hmm, hadj]
            exact decide_eq_true hchg
          rw [hwc, if_pos rfl]
          rfl
        · rename_i hnchg
          split at h
          · cases h
          · split at h
            · cases h
            · cases h
              have hwc : iterWindowChanged inp s = false := by
                simp only [iterWindowChanged]
                rw [if_pos hmm, hadj]
                exact decide_eq_false hnchg
              rw [hwc]
              rfl
    · rename_i hok
      split at h
      · cases h
      · split at h
        · cases h
        · cases h
          have hwc : iterWindowChanged inp s = false := by
            simp only [iterWindowChanged]
            rw [if_neg hok]
          rw [hwc]
          rfl

set_option maxRecDepth 2000 in
/-- Witness for `prominence_cache_policy` at the first iteration of the
`c6winp` run (a window-change `continue`). -/
theorem prominence_cache_policy_witness :
    c6ws1.promCache =
      if iterWindowChanged c6winp c6ws0 = true then some (iterWidthProm c6winp c6ws0) else none :=
  prominence_cache_policy c6winp c6ws0 c6ws1 (of_decide_eq_true (by with_unfolding_all rfl))

end GwEcc
